import Mathlib

/-!
Shallow embedding of the Xelma backend's round lifecycle and pari-mutuel
settlement core (round.service.ts, prediction.service.ts,
resolution.service.ts, leaderboard.service.ts, soroban.service.ts).

Monetary amounts are embedded as exact rationals (the source uses JS
doubles; the claims are stated over the embedded exact arithmetic).
Database rows become list entries; `prisma.X.update` by id becomes a map
over the list touching the matching entry.  The external Soroban ledger
call is represented by a boolean `sorobanOk` parameter: `true` means the
call (or the disabled-integration path) succeeded, `false` means it threw.
-/

inductive GameMode
  | UP_DOWN
  | LEGENDS
deriving DecidableEq

inductive RoundStatus
  | PENDING
  | ACTIVE
  | LOCKED
  | RESOLVED
  | CANCELLED
deriving DecidableEq

inductive Side
  | UP
  | DOWN
deriving DecidableEq

/-- The `PriceRange` interface of prediction.service.ts: bounds chosen by a
bettor (`{min, max}`). -/
structure PriceRange where
  min : ℚ
  max : ℚ
deriving DecidableEq

/-- The `PriceRange` interface of resolution.service.ts / the round's stored
`priceRanges` JSON: bounds plus the accumulated pool. -/
structure PoolRange where
  min : ℚ
  max : ℚ
  pool : ℚ
deriving DecidableEq

/-- A `Prediction` row.  `won`/`payout` are nullable columns, unset at
creation; the refund path later writes `won = null, payout = amount`. -/
structure Prediction where
  id : Nat
  userId : Nat
  amount : ℚ
  side : Option Side
  priceRange : Option PriceRange
  won : Option Bool
  payout : Option ℚ
deriving DecidableEq

/-- The slice of a `User` row this core mutates. -/
structure User where
  id : Nat
  virtualBalance : ℚ
  wins : ℤ
  streak : ℤ
deriving DecidableEq

/-- A `Round` row (the fields the settlement core reads and writes). -/
structure Round where
  mode : GameMode
  status : RoundStatus
  startPrice : ℚ
  endPrice : Option ℚ
  poolUp : ℚ
  poolDown : ℚ
  priceRanges : List PoolRange
deriving DecidableEq

/-- The persistent store: the round under consideration, its predictions,
and the user table.  `nextPredId` models id generation for created rows. -/
structure St where
  round : Option Round
  predictions : List Prediction
  users : List User
  nextPredId : Nat
deriving DecidableEq

/-- `prisma.user.findUnique({where: {id}})`. -/
def findUser? (users : List User) (uid : Nat) : Option User :=
  users.find? (fun u => u.id == uid)

/-- `prisma.prediction.findUnique({where: {id}})`. -/
def findPred? (preds : List Prediction) (pid : Nat) : Option Prediction :=
  preds.find? (fun p => p.id == pid)

/-- `prisma.user.update({where: {id}, data: ...})`. -/
def updateUser (users : List User) (uid : Nat) (f : User → User) : List User :=
  users.map (fun u => if u.id = uid then f u else u)

/-- `prisma.prediction.update({where: {id}, data: ...})`. -/
def updatePred (preds : List Prediction) (pid : Nat) (f : Prediction → Prediction) :
    List Prediction :=
  preds.map (fun p => if p.id = pid then f p else p)

inductive SubmitErr
  | roundNotFound
  | roundNotActive
  | duplicatePrediction
  | userNotFound
  | insufficientBalance
  | sideRequired
  | sorobanError
  | rangeRequired
  | invalidRange
  | invalidMode
deriving DecidableEq

/-- `PredictionService.submitPrediction` (prediction.service.ts).  Note the
source checks `user.virtualBalance < amount` but never `amount > 0`; the
`amount <= 0` guard lives only in the HTTP route (predictions route,
`if (!amount || amount <= 0) return 400`). -/
def submitPrediction (sorobanOk : Bool) (userId : Nat) (amount : ℚ)
    (side : Option Side) (priceRange : Option PriceRange) (s : St) :
    Except SubmitErr (St × Prediction) :=
  match s.round with
  | none => .error .roundNotFound
  | some round =>
    if round.status ≠ RoundStatus.ACTIVE then .error .roundNotActive
    else if (s.predictions.find? (fun p => p.userId == userId)).isSome then
      .error .duplicatePrediction
    else
      match findUser? s.users userId with
      | none => .error .userNotFound
      | some user =>
        if user.virtualBalance < amount then .error .insufficientBalance
        else
          match round.mode with
          | GameMode.UP_DOWN =>
            match side with
            | none => .error .sideRequired
            | some sd =>
              -- `await sorobanService.placeBet(...)` precedes every local write
              if sorobanOk then
                let pred : Prediction :=
                  { id := s.nextPredId, userId := userId, amount := amount,
                    side := some sd, priceRange := none, won := none, payout := none }
                .ok ({ round := some { round with
                         poolUp := if sd = Side.UP then round.poolUp + amount else round.poolUp,
                         poolDown := if sd = Side.DOWN then round.poolDown + amount else round.poolDown },
                       predictions := s.predictions ++ [pred],
                       users := updateUser s.users userId
                         (fun u => { u with virtualBalance := user.virtualBalance - amount }),
                       nextPredId := s.nextPredId + 1 }, pred)
              else .error .sorobanError
          | GameMode.LEGENDS =>
            match priceRange with
            | none => .error .rangeRequired
            | some pr =>
              if (round.priceRanges.find?
                    (fun r => decide (r.min = pr.min ∧ r.max = pr.max))).isSome then
                let pred : Prediction :=
                  { id := s.nextPredId, userId := userId, amount := amount,
                    side := none, priceRange := some pr, won := none, payout := none }
                .ok ({ round := some { round with
                         priceRanges := round.priceRanges.map
                           (fun r => if r.min = pr.min ∧ r.max = pr.max then
                                       { r with pool := r.pool + amount } else r) },
                       predictions := s.predictions ++ [pred],
                       users := updateUser s.users userId
                         (fun u => { u with virtualBalance := user.virtualBalance - amount }),
                       nextPredId := s.nextPredId + 1 }, pred)
              else .error .invalidRange

/-- The `amount` guard of the POST /api/predictions/submit route:
`if (!amount || amount <= 0) return 400 Invalid amount` (0 is falsy). -/
def routeAmountAccepted (amount : ℚ) : Bool :=
  decide (¬ (amount = 0 ∨ amount ≤ 0))

inductive LockErr
  | recordNotFound
deriving DecidableEq

/-- `RoundService.lockRound` (round.service.ts): a bare
`prisma.round.update({where:{id}, data:{status: LOCKED}})` with no check of
the current status; it fails only when the row does not exist. -/
def lockRound (s : St) : Except LockErr St :=
  match s.round with
  | none => .error .recordNotFound
  | some r => .ok { s with round := some { r with status := RoundStatus.LOCKED } }

inductive ResolveErr
  | roundNotFound
  | alreadyResolved
  | invalidState
  | sorobanError
deriving DecidableEq

/-- Refund loop body (resolution.service.ts, both modes): set
`won = null, payout = amount` and credit the stake back. -/
def refundStep (s : St) (p : Prediction) : St :=
  { s with
    predictions := updatePred s.predictions p.id
      (fun q => { q with won := none, payout := some p.amount }),
    users := updateUser s.users p.userId
      (fun u => { u with virtualBalance := u.virtualBalance + p.amount }) }

/-- Winner branch of the settlement loops: payout = amount + share,
`won = true`, balance credited by payout, wins and streak incremented. -/
def winnerStep (winningPool losingPool : ℚ) (s : St) (p : Prediction) : St :=
  let payout := p.amount + p.amount / winningPool * losingPool
  { s with
    predictions := updatePred s.predictions p.id
      (fun q => { q with won := some true, payout := some payout }),
    users := updateUser s.users p.userId
      (fun u => { u with virtualBalance := u.virtualBalance + payout,
                         wins := u.wins + 1, streak := u.streak + 1 }) }

/-- Loser branch of the settlement loops: `won = false, payout = 0`, no
balance credit, streak reset to 0. -/
def loserStep (s : St) (p : Prediction) : St :=
  { s with
    predictions := updatePred s.predictions p.id
      (fun q => { q with won := some false, payout := some 0 }),
    users := updateUser s.users p.userId (fun u => { u with streak := 0 }) }

/-- Body of the UP_DOWN payout loop (`prediction.side === winningSide`). -/
def upDownStep (winningSide : Side) (winningPool losingPool : ℚ)
    (s : St) (p : Prediction) : St :=
  if p.side = some winningSide then winnerStep winningPool losingPool s p
  else loserStep s p

/-- Body of the LEGENDS payout loop (`predictionRange.min === winningRange.min
&& predictionRange.max === winningRange.max`).  A prediction with a null
priceRange cannot occur in a LEGENDS round created through submit; the
source would fault reading `.min` of null, here it falls to the loser
branch. -/
def legendsStep (wr : PoolRange) (winningPool losingPool : ℚ)
    (s : St) (p : Prediction) : St :=
  match p.priceRange with
  | some pr =>
    if pr.min = wr.min ∧ pr.max = wr.max then winnerStep winningPool losingPool s p
    else loserStep s p
  | none => loserStep s p

/-- `const winningSide = priceWentUp ? "UP" : priceWentDown ? "DOWN" : null`
restricted to the payout branch (finalPrice ≠ startPrice). -/
def udWinningSide (round : Round) (finalPrice : ℚ) : Side :=
  if finalPrice > round.startPrice then Side.UP else Side.DOWN

/-- `const winningPool = winningSide === "UP" ? round.poolUp : round.poolDown`. -/
def udWinningPool (round : Round) (finalPrice : ℚ) : ℚ :=
  if udWinningSide round finalPrice = Side.UP then round.poolUp else round.poolDown

/-- `const losingPool = winningSide === "UP" ? round.poolDown : round.poolUp`. -/
def udLosingPool (round : Round) (finalPrice : ℚ) : ℚ :=
  if udWinningSide round finalPrice = Side.UP then round.poolDown else round.poolUp

/-- `ResolutionService.resolveUpDownRound`: the Soroban resolve call comes
first and its failure propagates; price unchanged refunds everyone;
`winningPool === 0` returns without touching any prediction. -/
def resolveUpDownRound (sorobanOk : Bool) (round : Round)
    (preds : List Prediction) (finalPrice : ℚ) (s : St) : Except ResolveErr St :=
  if sorobanOk then
    if finalPrice = round.startPrice then .ok (preds.foldl refundStep s)
    else
      if udWinningPool round finalPrice = 0 then .ok s
      else .ok (preds.foldl
        (upDownStep (udWinningSide round finalPrice) (udWinningPool round finalPrice)
          (udLosingPool round finalPrice)) s)
  else .error .sorobanError

/-- `priceRanges.find(range => finalPrice >= range.min && finalPrice < range.max)`. -/
def lgWinningRange? (round : Round) (finalPrice : ℚ) : Option PoolRange :=
  round.priceRanges.find? (fun r => decide (r.min ≤ finalPrice ∧ finalPrice < r.max))

/-- `const totalPool = priceRanges.reduce((sum, range) => sum + range.pool, 0)`. -/
def lgTotalPool (round : Round) : ℚ :=
  round.priceRanges.foldl (fun sum r => sum + r.pool) 0

/-- `ResolutionService.resolveLegendsRound`: no Soroban call; the first
range with `min <= finalPrice < max` wins; no matching range refunds
everyone; `winningPool === 0` returns without touching any prediction. -/
def resolveLegendsRound (round : Round) (preds : List Prediction)
    (finalPrice : ℚ) (s : St) : Except ResolveErr St :=
  match lgWinningRange? round finalPrice with
  | none => .ok (preds.foldl refundStep s)
  | some winningRange =>
    let winningPool := winningRange.pool
    let losingPool := lgTotalPool round - winningPool
    if winningPool = 0 then .ok s
    else .ok (preds.foldl (legendsStep winningRange winningPool losingPool) s)

/-- Marks the round RESOLVED with its end price: the
`prisma.round.update({data:{status: RESOLVED, endPrice}})` that runs after
the mode-specific settlement. -/
def finalizeRound (finalPrice : ℚ) (s : St) : St :=
  { s with round := (s.round.map
      (fun r => { r with status := RoundStatus.RESOLVED, endPrice := some finalPrice })) }

/-- `ResolutionService.resolveRound` (resolution.service.ts): read the round
with its predictions, reject RESOLVED / non-{LOCKED,ACTIVE} states, run the
mode-specific settlement, then mark the round RESOLVED. -/
def resolveRound (sorobanOk : Bool) (finalPrice : ℚ) (s : St) :
    Except ResolveErr St :=
  match s.round with
  | none => .error .roundNotFound
  | some round =>
    if round.status = RoundStatus.RESOLVED then .error .alreadyResolved
    else if round.status ≠ RoundStatus.LOCKED ∧ round.status ≠ RoundStatus.ACTIVE then
      .error .invalidState
    else
      let settled : Except ResolveErr St :=
        match round.mode with
        | GameMode.UP_DOWN => resolveUpDownRound sorobanOk round s.predictions finalPrice s
        | GameMode.LEGENDS => resolveLegendsRound round s.predictions finalPrice s
      match settled with
      | .error e => .error e
      | .ok s1 => .ok (finalizeRound finalPrice s1)

/-- A `UserStats` row (leaderboard.service.ts). -/
structure UserStats where
  userId : Nat
  totalPredictions : Nat
  correctPredictions : Nat
  totalEarnings : ℚ
  upDownWins : Nat
  upDownLosses : Nat
  upDownEarnings : ℚ
  legendsWins : Nat
  legendsLosses : Nat
  legendsEarnings : ℚ
deriving DecidableEq

/-- `calculatePredictionResult` (leaderboard.service.ts): recomputes
correctness from the stored prices, ignoring the prediction's settled
`won`/`payout`.  UP_DOWN: DOWN is "correct" whenever the price did not go
up (including an unchanged price).  LEGENDS: inclusive upper bound
(`endPrice <= range.max`), unlike the settlement's strict `<`. -/
def calculatePredictionResult (p : Prediction) (r : Round) : Bool :=
  match r.endPrice with
  | none => false
  | some endPrice =>
    match r.mode with
    | GameMode.UP_DOWN =>
      let priceWentUp := decide (endPrice > r.startPrice)
      (p.side == some Side.UP && priceWentUp) ||
        (p.side == some Side.DOWN && !priceWentUp)
    | GameMode.LEGENDS =>
      match p.priceRange with
      | none => false
      | some range => decide (range.min ≤ endPrice ∧ endPrice ≤ range.max)

/-- The `create` branch of the stats upsert. -/
def freshStats (uid : Nat) (isUpDown isLegends isCorrect : Bool)
    (earnings : ℚ) : UserStats :=
  { userId := uid
    totalPredictions := 1
    correctPredictions := if isCorrect then 1 else 0
    totalEarnings := earnings
    upDownWins := if isUpDown && isCorrect then 1 else 0
    upDownLosses := if isUpDown && !isCorrect then 1 else 0
    upDownEarnings := if isUpDown then earnings else 0
    legendsWins := if isLegends && isCorrect then 1 else 0
    legendsLosses := if isLegends && !isCorrect then 1 else 0
    legendsEarnings := if isLegends then earnings else 0 }

/-- The `update` branch of the stats upsert. -/
def bumpStats (isUpDown isLegends isCorrect : Bool) (earnings : ℚ)
    (t : UserStats) : UserStats :=
  { t with
    totalPredictions := t.totalPredictions + 1
    correctPredictions := t.correctPredictions + (if isCorrect then 1 else 0)
    totalEarnings := t.totalEarnings + earnings
    upDownWins := t.upDownWins + (if isUpDown && isCorrect then 1 else 0)
    upDownLosses := t.upDownLosses + (if isUpDown && !isCorrect then 1 else 0)
    upDownEarnings := t.upDownEarnings + (if isUpDown then earnings else 0)
    legendsWins := t.legendsWins + (if isLegends && isCorrect then 1 else 0)
    legendsLosses := t.legendsLosses + (if isLegends && !isCorrect then 1 else 0)
    legendsEarnings := t.legendsEarnings + (if isLegends then earnings else 0) }

/-- `prisma.userStats.upsert({where: {userId}, create, update})`. -/
def upsertStats (stats : List UserStats) (uid : Nat)
    (isUpDown isLegends isCorrect : Bool) (earnings : ℚ) : List UserStats :=
  if (stats.find? (fun t => t.userId == uid)).isSome then
    stats.map (fun t => if t.userId = uid then
      bumpStats isUpDown isLegends isCorrect earnings t else t)
  else stats ++ [freshStats uid isUpDown isLegends isCorrect earnings]

/-- Per-prediction body of `updateUserStatsForRound`: earnings are
`+amount` when `calculatePredictionResult` holds and `-amount` otherwise. -/
def statsStep (r : Round) (stats : List UserStats) (p : Prediction) :
    List UserStats :=
  let isCorrect := calculatePredictionResult p r
  let earnings := if isCorrect then p.amount else -p.amount
  let isUpDown := r.mode == GameMode.UP_DOWN
  let isLegends := r.mode == GameMode.LEGENDS
  upsertStats stats p.userId isUpDown isLegends isCorrect earnings

inductive StatsErr
  | roundNotFoundOrNotClosed
deriving DecidableEq

/-- `updateUserStatsForRound` (leaderboard.service.ts).  The source guards
`if (!round || !round.endPrice) throw`, so an endPrice of 0 (falsy) is
also rejected. -/
def updateUserStatsForRound (r : Round) (preds : List Prediction)
    (stats : List UserStats) : Except StatsErr (List UserStats) :=
  match r.endPrice with
  | none => .error .roundNotFoundOrNotClosed
  | some ep =>
    if ep = 0 then .error .roundNotFoundOrNotClosed
    else .ok (preds.foldl (statsStep r) stats)

/-- A core operation, for stating properties of operation sequences. -/
inductive Op
  | submit (sorobanOk : Bool) (userId : Nat) (amount : ℚ)
      (side : Option Side) (priceRange : Option PriceRange)
  | resolve (sorobanOk : Bool) (finalPrice : ℚ)
  | lock

/-- Applies one operation; a failed operation leaves the store unchanged. -/
def applyOp (s : St) (op : Op) : St :=
  match op with
  | .submit ok uid amount side pr =>
    match submitPrediction ok uid amount side pr s with
    | .ok (s1, _) => s1
    | .error _ => s
  | .resolve ok fp =>
    match resolveRound ok fp s with
    | .ok s1 => s1
    | .error _ => s
  | .lock =>
    match lockRound s with
    | .ok s1 => s1
    | .error _ => s

/-- Runs a sequence of core operations. -/
def runOps (s : St) (ops : List Op) : St :=
  ops.foldl applyOp s

/-! ### Interleaving model of two concurrent resolveRound calls

`resolveRound` is a sequence of separately-awaited store operations with no
transaction around them: (1) read the round with its predictions and check
the status, (2) run the per-prediction settlement writes, (3) write
`status = RESOLVED`.  Between any two of these phases the other call's
phases may run.  Each phase below is atomic, which under-approximates the
possible interleavings of the finer-grained source (every phase groups
consecutive awaits of one call), so any behaviour exhibited here is a
behaviour of the source. -/

inductive Phase
  | start
  | checked
  | paid
  | done
  | failed
deriving DecidableEq

/-- Local state of one in-flight resolveRound call. -/
structure ProcSt where
  phase : Phase
  snapRound : Option Round
  snapPreds : List Prediction
  err : Option ResolveErr
deriving DecidableEq

def ProcSt.init : ProcSt :=
  { phase := .start, snapRound := none, snapPreds := [], err := none }

/-- Shared store plus the two callers' local states. -/
structure ConcSt where
  shared : St
  procA : ProcSt
  procB : ProcSt
deriving DecidableEq

/-- Phase 1: `findUnique` plus the status checks, on the current store. -/
def checkPhase (s : St) (p : ProcSt) : ProcSt :=
  match s.round with
  | none => { p with phase := .failed, err := some .roundNotFound }
  | some round =>
    if round.status = RoundStatus.RESOLVED then
      { p with phase := .failed, err := some .alreadyResolved }
    else if round.status ≠ RoundStatus.LOCKED ∧ round.status ≠ RoundStatus.ACTIVE then
      { p with phase := .failed, err := some .invalidState }
    else
      { p with phase := .checked, snapRound := some round,
               snapPreds := s.predictions }

/-- Phase 2: the mode-specific settlement writes, computed from the
caller's snapshot but applied to the current store (each prisma update is
by id / increment). -/
def payPhase (finalPrice : ℚ) (s : St) (p : ProcSt) : St × ProcSt :=
  match p.snapRound with
  | none => (s, { p with phase := .failed })
  | some round =>
    let settled : Except ResolveErr St :=
      match round.mode with
      | GameMode.UP_DOWN => resolveUpDownRound true round p.snapPreds finalPrice s
      | GameMode.LEGENDS => resolveLegendsRound round p.snapPreds finalPrice s
    match settled with
    | .error e => (s, { p with phase := .failed, err := some e })
    | .ok s1 => (s1, { p with phase := .paid })

/-- One scheduling step: advance the chosen caller by one phase. -/
def concStep (finalPrice : ℚ) (c : ConcSt) (pickB : Bool) : ConcSt :=
  let p := if pickB then c.procB else c.procA
  let next : St × ProcSt :=
    match p.phase with
    | .start => (c.shared, checkPhase c.shared p)
    | .checked => payPhase finalPrice c.shared p
    | .paid => (finalizeRound finalPrice c.shared, { p with phase := .done })
    | .done => (c.shared, p)
    | .failed => (c.shared, p)
  if pickB then { c with shared := next.1, procB := next.2 }
  else { c with shared := next.1, procA := next.2 }

/-- Runs a schedule (false = caller A moves, true = caller B moves). -/
def runSched (finalPrice : ℚ) (s : St) (sched : List Bool) : ConcSt :=
  sched.foldl (concStep finalPrice) { shared := s, procA := .init, procB := .init }

/-! ### Derived forms and measures used by the verification -/

/-- Common shape of every settlement-loop body: one prediction update by id
and one user update by userId, with payloads computed from the iterated
prediction. -/
def stepOf (pf : Prediction → Prediction → Prediction)
    (uf : Prediction → User → User) (s : St) (p : Prediction) : St :=
  { s with predictions := updatePred s.predictions p.id (pf p),
           users := updateUser s.users p.userId (uf p) }

/-- Winner test of the UP_DOWN payout loop. -/
def udWins (winningSide : Side) (p : Prediction) : Bool :=
  decide (p.side = some winningSide)

/-- Winner test of the LEGENDS payout loop. -/
def lgWins (wr : PoolRange) (p : Prediction) : Bool :=
  match p.priceRange with
  | some pr => decide (pr.min = wr.min ∧ pr.max = wr.max)
  | none => false

/-- The pari-mutuel payout of a winning prediction. -/
def payoutOf (winningPool losingPool : ℚ) (p : Prediction) : ℚ :=
  p.amount + p.amount / winningPool * losingPool

/-- Prediction-row payload of a payout loop body. -/
def settlePredF (isWin : Prediction → Bool) (winningPool losingPool : ℚ)
    (p q : Prediction) : Prediction :=
  if isWin p then
    { q with won := some true, payout := some (payoutOf winningPool losingPool p) }
  else { q with won := some false, payout := some 0 }

/-- User-row payload of a payout loop body. -/
def settleUserF (isWin : Prediction → Bool) (winningPool losingPool : ℚ)
    (p : Prediction) (u : User) : User :=
  if isWin p then
    { u with virtualBalance := u.virtualBalance + payoutOf winningPool losingPool p,
             wins := u.wins + 1, streak := u.streak + 1 }
  else { u with streak := 0 }

/-- Prediction-row payload of the refund loop body. -/
def refundPredF (p q : Prediction) : Prediction :=
  { q with won := none, payout := some p.amount }

/-- User-row payload of the refund loop body. -/
def refundUserF (p : Prediction) (u : User) : User :=
  { u with virtualBalance := u.virtualBalance + p.amount }

/-- Stake total of one side of an UP_DOWN round's predictions. -/
def sideTotal (l : List Prediction) (sd : Side) : ℚ :=
  (l.map (fun p => if p.side = some sd then p.amount else 0)).sum

/-- Stake total of the predictions matching a winner test. -/
def winTotal (isWin : Prediction → Bool) (l : List Prediction) : ℚ :=
  (l.map (fun p => if isWin p then p.amount else 0)).sum

/-- Total payout recorded on predictions settled as won. -/
def wonPayoutTotal (l : List Prediction) : ℚ :=
  (l.map (fun p => if p.won = some true then p.payout.getD 0 else 0)).sum

/-- Total stake a refund sweep credits back to one user. -/
def creditSum (l : List Prediction) (uid : Nat) : ℚ :=
  (l.map (fun p => if p.userId = uid then p.amount else 0)).sum

/-- Every stored balance is non-negative. -/
def BalancesNonneg (s : St) : Prop :=
  ∀ u ∈ s.users, 0 ≤ u.virtualBalance

/-- Every stored prediction has a positive stake. -/
def AmountsPos (s : St) : Prop :=
  ∀ p ∈ s.predictions, 0 < p.amount

/-- Every stored pool total is non-negative. -/
def PoolsNonneg (s : St) : Prop :=
  match s.round with
  | none => True
  | some r => 0 ≤ r.poolUp ∧ 0 ≤ r.poolDown ∧ ∀ rg ∈ r.priceRanges, 0 ≤ rg.pool

/-- Store well-formedness preserved by the core operations (when submitted
amounts are positive). -/
def GoodState (s : St) : Prop :=
  BalancesNonneg s ∧ AmountsPos s ∧ PoolsNonneg s

/-- The amount carried by a submit operation is positive (the HTTP route's
guard); non-submit operations carry no amount. -/
def opAmountPos : Op → Prop
  | .submit _ _ amount _ _ => 0 < amount
  | .resolve _ _ => True
  | .lock => True

/-- `prisma.userStats.findUnique({where: {userId}})`. -/
def statsFind? (stats : List UserStats) (uid : Nat) : Option UserStats :=
  stats.find? (fun t => t.userId == uid)

/-- The all-zero stats row, the base the upsert's create branch builds on. -/
def zeroStats (uid : Nat) : UserStats :=
  { userId := uid, totalPredictions := 0, correctPredictions := 0,
    totalEarnings := 0, upDownWins := 0, upDownLosses := 0, upDownEarnings := 0,
    legendsWins := 0, legendsLosses := 0, legendsEarnings := 0 }

/-! ### Concrete stores used as counterexamples and witnesses -/

/-- An ACTIVE UP_DOWN round at start price 100 with pools up/down. -/
def activeUpDownRound (up down : ℚ) : Round :=
  { mode := .UP_DOWN, status := .ACTIVE, startPrice := 100, endPrice := none,
    poolUp := up, poolDown := down, priceRanges := [] }

/-- A fresh (unsettled) prediction row. -/
def betOn (pid uid : Nat) (amount : ℚ) (sd : Side) : Prediction :=
  { id := pid, userId := uid, amount := amount, side := some sd,
    priceRange := none, won := none, payout := none }

/-- A user row with the given balance and zero counters. -/
def plainUser (uid : Nat) (balance : ℚ) : User :=
  { id := uid, virtualBalance := balance, wins := 0, streak := 0 }

/-- An ACTIVE UP_DOWN round, start price 100, one UP bet of 100 by user 1
(pools 100/0). -/
def oneUpBetSt : St :=
  { round := some (activeUpDownRound 100 0),
    predictions := [betOn 1 1 100 .UP],
    users := [plainUser 1 0],
    nextPredId := 2 }

/-- An ACTIVE UP_DOWN round with an empty UP pool and one DOWN bet of 100
by user 1. -/
def noWinnerSt : St :=
  { round := some (activeUpDownRound 0 100),
    predictions := [betOn 1 1 100 .DOWN],
    users := [plainUser 1 0],
    nextPredId := 2 }

/-- An empty ACTIVE UP_DOWN round with users 1 (balance 0) and 2
(balance 50). -/
def twoUserSt : St :=
  { round := some (activeUpDownRound 0 0),
    predictions := [],
    users := [plainUser 1 0, plainUser 2 50],
    nextPredId := 1 }

/-- An empty ACTIVE LEGENDS round with one range [100,105) and user 1
holding balance 100. -/
def legendsSt : St :=
  { round := some { mode := .LEGENDS, status := .ACTIVE, startPrice := 100,
                    endPrice := none, poolUp := 0, poolDown := 0,
                    priceRanges := [{ min := 100, max := 105, pool := 0 }] },
    predictions := [],
    users := [plainUser 1 100],
    nextPredId := 1 }

/-- A RESOLVED UP_DOWN round (100 → 110, pools 300/100). -/
def resolvedRound : Round :=
  { mode := .UP_DOWN, status := .RESOLVED, startPrice := 100,
    endPrice := some 110, poolUp := 300, poolDown := 100, priceRanges := [] }

/-- User 7's winning prediction in `resolvedRound`: stake 100, settled
payout 100 + (100/300)*100 = 400/3. -/
def winnerPred : Prediction :=
  { id := 1, userId := 7, amount := 100, side := some .UP,
    priceRange := none, won := some true, payout := some (400/3 : ℚ) }

/-- A store holding only `resolvedRound`. -/
def resolvedSt : St :=
  { round := some resolvedRound, predictions := [], users := [], nextPredId := 1 }

/-- A prediction settled as a winner with the given payout. -/
def wonPred (p : Prediction) (payout : ℚ) : Prediction :=
  { p with won := some true, payout := some payout }

/-- A prediction settled as a loser. -/
def lostPred (p : Prediction) : Prediction :=
  { p with won := some false, payout := some 0 }

/-- A prediction settled as refunded. -/
def refundedPred (p : Prediction) : Prediction :=
  { p with won := none, payout := some p.amount }

/-- A user credited with a winning payout: balance up by the payout, wins
and streak incremented. -/
def creditedWinner (u : User) (payout : ℚ) : User :=
  { u with virtualBalance := u.virtualBalance + payout,
           wins := u.wins + 1, streak := u.streak + 1 }

/-- A user after losing: only the streak is reset. -/
def streakReset (u : User) : User :=
  { u with streak := 0 }

/-- A user credited with a refund: balance up by the stake, nothing else. -/
def creditedUser (u : User) (amount : ℚ) : User :=
  { u with virtualBalance := u.virtualBalance + amount }

/-- A fresh LEGENDS prediction row on a price range. -/
def legendsBet (pid uid : Nat) (amount lo hi : ℚ) : Prediction :=
  { id := pid, userId := uid, amount := amount, side := none,
    priceRange := some { min := lo, max := hi }, won := none, payout := none }

/-- The spec's Legends scenario: ranges [100,105) and [105,110) holding 50
each, bettor 1 on the first, bettor 2 on the second. -/
def legendsBetSt : St :=
  { round := some { mode := .LEGENDS, status := .LOCKED, startPrice := 100,
                    endPrice := none, poolUp := 0, poolDown := 0,
                    priceRanges := [{ min := 100, max := 105, pool := 50 },
                                    { min := 105, max := 110, pool := 50 }] },
    predictions := [legendsBet 1 1 50 100 105, legendsBet 2 2 50 105 110],
    users := [plainUser 1 0, plainUser 2 0],
    nextPredId := 3 }

/-- An ACTIVE UP_DOWN round with an UP bet of 100 by user 1 and a DOWN bet
of 50 by user 2 (pools 100/50); user 1 still holds balance 5. -/
def mixedBetSt : St :=
  { round := some (activeUpDownRound 100 50),
    predictions := [betOn 1 1 100 .UP, betOn 2 2 50 .DOWN],
    users := [{ id := 1, virtualBalance := 5, wins := 2, streak := 3 }, plainUser 2 0],
    nextPredId := 3 }

/-- The round row as rewritten by a successful UP_DOWN submission of
`amount` on `side`. -/
def submittedRound (r0 : Round) (side : Side) (amount : ℚ) : Round :=
  { mode := GameMode.UP_DOWN, status := r0.status, startPrice := r0.startPrice,
    endPrice := r0.endPrice,
    poolUp := if side = Side.UP then r0.poolUp + amount else r0.poolUp,
    poolDown := if side = Side.DOWN then r0.poolDown + amount else r0.poolDown,
    priceRanges := r0.priceRanges }

/-- A store with no round row. -/
def emptySt : St :=
  { round := none, predictions := [], users := [], nextPredId := 1 }

/-! ### Infrastructure lemmas -/

theorem refundStep_eq : refundStep = stepOf refundPredF refundUserF := rfl

theorem upDownStep_eq (ws : Side) (W L : ℚ) :
    upDownStep ws W L =
      stepOf (settlePredF (udWins ws) W L) (settleUserF (udWins ws) W L) := by
  funext s p
  unfold upDownStep stepOf settlePredF settleUserF udWins winnerStep loserStep payoutOf
  by_cases h : p.side = some ws <;> simp [h]

theorem legendsStep_eq (wr : PoolRange) (W L : ℚ) :
    legendsStep wr W L =
      stepOf (settlePredF (lgWins wr) W L) (settleUserF (lgWins wr) W L) := by
  funext s p
  unfold legendsStep stepOf settlePredF settleUserF lgWins winnerStep loserStep payoutOf
  cases hpr : p.priceRange with
  | none => simp
  | some pr => by_cases h : pr.min = wr.min ∧ pr.max = wr.max <;> simp [h]

theorem findUser?_updateUser_self (users : List User) (uid : Nat) (f : User → User)
    (hid : ∀ u, (f u).id = u.id) :
    findUser? (updateUser users uid f) uid = (findUser? users uid).map f := by
  induction users with
  | nil => rfl
  | cons u rest ih =>
    unfold updateUser findUser? at *
    by_cases h : u.id = uid
    · simp [List.find?_cons, h, hid]
    · simp [List.find?_cons, h, ih]

theorem findUser?_updateUser_ne (users : List User) (uid uid2 : Nat) (f : User → User)
    (hid : ∀ u, (f u).id = u.id) (hne : uid2 ≠ uid) :
    findUser? (updateUser users uid f) uid2 = findUser? users uid2 := by
  induction users with
  | nil => rfl
  | cons u rest ih =>
    unfold updateUser findUser? at *
    simp only [List.map_cons]
    by_cases h : u.id = uid
    · exact (List.find?_cons_of_neg _ (by simp [h, hid, Ne.symm hne])).trans
        (ih.trans (List.find?_cons_of_neg _ (by simp [h, Ne.symm hne])).symm)
    · have e : (if u.id = uid then f u else u) = u := by simp [h]
      rw [e]
      by_cases h2 : u.id = uid2
      · exact (List.find?_cons_of_pos _ (by simp [h2])).trans
          (List.find?_cons_of_pos _ (by simp [h2])).symm
      · exact (List.find?_cons_of_neg _ (by simp [h2])).trans
          (ih.trans (List.find?_cons_of_neg _ (by simp [h2])).symm)

theorem findPred?_updatePred_self (preds : List Prediction) (pid : Nat)
    (f : Prediction → Prediction) (hid : ∀ p, (f p).id = p.id) :
    findPred? (updatePred preds pid f) pid = (findPred? preds pid).map f := by
  induction preds with
  | nil => rfl
  | cons p rest ih =>
    unfold updatePred findPred? at *
    by_cases h : p.id = pid
    · simp [List.find?_cons, h, hid]
    · simp [List.find?_cons, h, ih]

theorem findPred?_updatePred_ne (preds : List Prediction) (pid pid2 : Nat)
    (f : Prediction → Prediction) (hid : ∀ p, (f p).id = p.id) (hne : pid2 ≠ pid) :
    findPred? (updatePred preds pid f) pid2 = findPred? preds pid2 := by
  induction preds with
  | nil => rfl
  | cons p rest ih =>
    unfold updatePred findPred? at *
    simp only [List.map_cons]
    by_cases h : p.id = pid
    · exact (List.find?_cons_of_neg _ (by simp [h, hid, Ne.symm hne])).trans
        (ih.trans (List.find?_cons_of_neg _ (by simp [h, Ne.symm hne])).symm)
    · have e : (if p.id = pid then f p else p) = p := by simp [h]
      rw [e]
      by_cases h2 : p.id = pid2
      · exact (List.find?_cons_of_pos _ (by simp [h2])).trans
          (List.find?_cons_of_pos _ (by simp [h2])).symm
      · exact (List.find?_cons_of_neg _ (by simp [h2])).trans
          (ih.trans (List.find?_cons_of_neg _ (by simp [h2])).symm)

theorem stepOf_round (pf : Prediction → Prediction → Prediction)
    (uf : Prediction → User → User) (s : St) (p : Prediction) :
    (stepOf pf uf s p).round = s.round := rfl

theorem foldl_stepOf_round (pf : Prediction → Prediction → Prediction)
    (uf : Prediction → User → User) (l : List Prediction) (s : St) :
    (l.foldl (stepOf pf uf) s).round = s.round := by
  induction l generalizing s with
  | nil => rfl
  | cons p rest ih => exact ih (stepOf pf uf s p)

theorem foldl_stepOf_findPred_untouched (pf : Prediction → Prediction → Prediction)
    (uf : Prediction → User → User) (hpf : ∀ p q, (pf p q).id = q.id)
    (l : List Prediction) (s : St) (pid : Nat) (h : ∀ r ∈ l, r.id ≠ pid) :
    findPred? (l.foldl (stepOf pf uf) s).predictions pid = findPred? s.predictions pid := by
  induction l generalizing s with
  | nil => rfl
  | cons p rest ih =>
    have h1 := ih (stepOf pf uf s p) (fun r hr => h r (List.mem_cons_of_mem _ hr))
    rw [List.foldl_cons] at *
    rw [h1]
    exact findPred?_updatePred_ne s.predictions p.id pid (pf p) (hpf p)
      (fun e => h p (List.mem_cons_self _ _) e.symm) |>.symm ▸ rfl

theorem foldl_stepOf_findUser_untouched (pf : Prediction → Prediction → Prediction)
    (uf : Prediction → User → User) (huf : ∀ p u, (uf p u).id = u.id)
    (l : List Prediction) (s : St) (uid : Nat) (h : ∀ r ∈ l, r.userId ≠ uid) :
    findUser? (l.foldl (stepOf pf uf) s).users uid = findUser? s.users uid := by
  induction l generalizing s with
  | nil => rfl
  | cons p rest ih =>
    have h1 := ih (stepOf pf uf s p) (fun r hr => h r (List.mem_cons_of_mem _ hr))
    rw [List.foldl_cons] at *
    rw [h1]
    exact findUser?_updateUser_ne s.users p.userId uid (uf p) (huf p)
      (fun e => h p (List.mem_cons_self _ _) e.symm)

theorem foldl_stepOf_findPred_once (pf : Prediction → Prediction → Prediction)
    (uf : Prediction → User → User) (hpf : ∀ p q, (pf p q).id = q.id)
    (l1 l2 : List Prediction) (p q : Prediction) (s : St)
    (h1 : ∀ r ∈ l1, r.id ≠ p.id) (h2 : ∀ r ∈ l2, r.id ≠ p.id)
    (hq : findPred? s.predictions p.id = some q) :
    findPred? ((l1 ++ p :: l2).foldl (stepOf pf uf) s).predictions p.id = some (pf p q) := by
  induction l1 generalizing s with
  | nil =>
    rw [List.nil_append, List.foldl_cons]
    rw [foldl_stepOf_findPred_untouched pf uf hpf l2 _ p.id h2]
    show findPred? (updatePred s.predictions p.id (pf p)) p.id = some (pf p q)
    rw [findPred?_updatePred_self s.predictions p.id (pf p) (hpf p), hq]
    rfl
  | cons r rest ih =>
    rw [List.cons_append, List.foldl_cons]
    refine ih (stepOf pf uf s r) (fun x hx => h1 x (List.mem_cons_of_mem _ hx)) ?_
    show findPred? (updatePred s.predictions r.id (pf r)) p.id = some q
    rw [findPred?_updatePred_ne s.predictions r.id p.id (pf r) (hpf r)
      (fun e => h1 r (List.mem_cons_self _ _) e.symm)]
    exact hq

theorem foldl_stepOf_findUser_once (pf : Prediction → Prediction → Prediction)
    (uf : Prediction → User → User) (huf : ∀ p u, (uf p u).id = u.id)
    (l1 l2 : List Prediction) (p : Prediction) (u : User) (s : St)
    (h1 : ∀ r ∈ l1, r.userId ≠ p.userId) (h2 : ∀ r ∈ l2, r.userId ≠ p.userId)
    (hu : findUser? s.users p.userId = some u) :
    findUser? ((l1 ++ p :: l2).foldl (stepOf pf uf) s).users p.userId = some (uf p u) := by
  induction l1 generalizing s with
  | nil =>
    rw [List.nil_append, List.foldl_cons]
    rw [foldl_stepOf_findUser_untouched pf uf huf l2 _ p.userId h2]
    show findUser? (updateUser s.users p.userId (uf p)) p.userId = some (uf p u)
    rw [findUser?_updateUser_self s.users p.userId (uf p) (huf p), hu]
    rfl
  | cons r rest ih =>
    rw [List.cons_append, List.foldl_cons]
    refine ih (stepOf pf uf s r) (fun x hx => h1 x (List.mem_cons_of_mem _ hx)) ?_
    show findUser? (updateUser s.users r.userId (uf r)) p.userId = some u
    rw [findUser?_updateUser_ne s.users r.userId p.userId (uf r) (huf r)
      (fun e => h1 r (List.mem_cons_self _ _) e.symm)]
    exact hu

theorem findPred?_eq_self_of_nodup (l : List Prediction) (p : Prediction)
    (hmem : p ∈ l) (hnd : (l.map Prediction.id).Nodup) :
    findPred? l p.id = some p := by
  induction l with
  | nil => cases hmem
  | cons q rest ih =>
    rw [List.map_cons, List.nodup_cons] at hnd
    rcases List.mem_cons.mp hmem with h | h
    · subst h
      exact List.find?_cons_of_pos _ (by simp)
    · have hne : q.id ≠ p.id := fun e => hnd.1 (e ▸ List.mem_map_of_mem Prediction.id h)
      unfold findPred? at *
      exact (List.find?_cons_of_neg _ (by simp [hne])).trans (ih h hnd.2)

theorem exists_split_of_nodup {β : Type} [DecidableEq β] (l : List Prediction)
    (f : Prediction → β) (p : Prediction) (hmem : p ∈ l) (hnd : (l.map f).Nodup) :
    ∃ l1 l2, l = l1 ++ p :: l2 ∧ (∀ r ∈ l1, f r ≠ f p) ∧ (∀ r ∈ l2, f r ≠ f p) := by
  obtain ⟨l1, l2, rfl⟩ := List.append_of_mem hmem
  refine ⟨l1, l2, rfl, ?_, ?_⟩
  · intro r hr he
    rw [List.map_append, List.map_cons] at hnd
    rcases List.nodup_append.mp hnd with ⟨-, -, hdis⟩
    exact hdis (List.mem_map_of_mem f hr) (by simp [he])
  · intro r hr he
    rw [List.map_append, List.map_cons] at hnd
    rcases List.nodup_append.mp hnd with ⟨-, hnd2, -⟩
    rw [List.nodup_cons] at hnd2
    exact hnd2.1 (he ▸ List.mem_map_of_mem f hr)

theorem updatePred_of_ne (l : List Prediction) (pid : Nat)
    (f : Prediction → Prediction) (h : ∀ e ∈ l, e.id ≠ pid) :
    updatePred l pid f = l := by
  unfold updatePred
  induction l with
  | nil => rfl
  | cons q rest ih =>
    rw [List.map_cons, if_neg (h q (List.mem_cons_self _ _)),
      ih (fun e he => h e (List.mem_cons_of_mem _ he))]

theorem foldl_stepOf_predictions (pf : Prediction → Prediction → Prediction)
    (uf : Prediction → User → User) (hpf : ∀ p q, (pf p q).id = q.id) :
    ∀ (l done : List Prediction) (s : St),
      s.predictions = done ++ l →
      (∀ r ∈ l, ∀ d ∈ done, r.id ≠ d.id) →
      (l.map Prediction.id).Nodup →
      (l.foldl (stepOf pf uf) s).predictions = done ++ l.map (fun p => pf p p)
  | [], done, s, hs, _, _ => by simpa using hs
  | p :: rest, done, s, hs, hdone, hnd => by
    rw [List.map_cons, List.nodup_cons] at hnd
    have hstep : (stepOf pf uf s p).predictions = (done ++ [pf p p]) ++ rest := by
      show updatePred s.predictions p.id (pf p) = (done ++ [pf p p]) ++ rest
      rw [hs]
      unfold updatePred
      rw [List.map_append]
      have hdn : (done.map (fun q => if q.id = p.id then pf p q else q)) = done := by
        have := updatePred_of_ne done p.id (pf p)
          (fun d hd e => hdone p (List.mem_cons_self _ _) d hd e.symm)
        simpa [updatePred] using this
      have hrn : (rest.map (fun q => if q.id = p.id then pf p q else q)) = rest := by
        have := updatePred_of_ne rest p.id (pf p)
          (fun r hr e => hnd.1 (e ▸ List.mem_map_of_mem Prediction.id hr))
        simpa [updatePred] using this
      rw [hdn, List.map_cons, if_pos rfl, hrn]
      simp
    rw [List.foldl_cons]
    have hrec := foldl_stepOf_predictions pf uf hpf rest (done ++ [pf p p])
      (stepOf pf uf s p) hstep ?_ hnd.2
    · rw [hrec, List.map_cons]
      simp
    · intro r hr d hd
      rcases List.mem_append.mp hd with hd | hd
      · exact hdone r (List.mem_cons_of_mem _ hr) d hd
      · have : d = pf p p := by simpa using hd
        rw [this, hpf]
        exact fun e => hnd.1 (e ▸ List.mem_map_of_mem Prediction.id hr)

theorem mem_updateUser_cases (users : List User) (uid : Nat) (f : User → User)
    (u : User) (hu : u ∈ updateUser users uid f) :
    ∃ v ∈ users, u = f v ∨ u = v := by
  unfold updateUser at hu
  rcases List.mem_map.mp hu with ⟨v, hv, he⟩
  refine ⟨v, hv, ?_⟩
  by_cases h : v.id = uid
  · left; rw [← he]; simp [h]
  · right; rw [← he]; simp [h]

theorem mem_updatePred_cases (preds : List Prediction) (pid : Nat)
    (f : Prediction → Prediction) (q : Prediction) (hq : q ∈ updatePred preds pid f) :
    ∃ w ∈ preds, q = f w ∨ q = w := by
  unfold updatePred at hq
  rcases List.mem_map.mp hq with ⟨w, hw, he⟩
  refine ⟨w, hw, ?_⟩
  by_cases h : w.id = pid
  · left; rw [← he]; simp [h]
  · right; rw [← he]; simp [h]

theorem foldl_stepOf_balances (pf : Prediction → Prediction → Prediction)
    (uf : Prediction → User → User) (l : List Prediction) (s : St)
    (hl : ∀ p ∈ l, ∀ u : User, 0 ≤ u.virtualBalance → 0 ≤ (uf p u).virtualBalance)
    (hs : ∀ u ∈ s.users, 0 ≤ u.virtualBalance) :
    ∀ u ∈ (l.foldl (stepOf pf uf) s).users, 0 ≤ u.virtualBalance := by
  induction l generalizing s with
  | nil => exact hs
  | cons p rest ih =>
    rw [List.foldl_cons]
    refine ih (stepOf pf uf s p) (fun q hq => hl q (List.mem_cons_of_mem _ hq)) ?_
    intro u hu
    rcases mem_updateUser_cases _ _ _ u hu with ⟨v, hv, h | h⟩
    · exact h ▸ hl p (List.mem_cons_self _ _) v (hs v hv)
    · exact h ▸ hs v hv

theorem foldl_stepOf_amounts (pf : Prediction → Prediction → Prediction)
    (uf : Prediction → User → User) (hamt : ∀ p q, (pf p q).amount = q.amount)
    (l : List Prediction) (s : St) (hs : ∀ q ∈ s.predictions, 0 < q.amount) :
    ∀ q ∈ (l.foldl (stepOf pf uf) s).predictions, 0 < q.amount := by
  induction l generalizing s with
  | nil => exact hs
  | cons p rest ih =>
    rw [List.foldl_cons]
    refine ih (stepOf pf uf s p) ?_
    intro q hq
    rcases mem_updatePred_cases _ _ _ q hq with ⟨w, hw, h | h⟩
    · rw [h, hamt]
      exact hs w hw
    · exact h ▸ hs w hw

theorem creditSum_cons (p : Prediction) (l : List Prediction) (uid : Nat) :
    creditSum (p :: l) uid =
      (if p.userId = uid then p.amount else 0) + creditSum l uid := by
  unfold creditSum
  rw [List.map_cons, List.sum_cons]

theorem foldl_refund_findUser (l : List Prediction) (s : St) (uid : Nat) (u : User)
    (hu : findUser? s.users uid = some u) :
    findUser? (l.foldl refundStep s).users uid =
      some { u with virtualBalance := u.virtualBalance + creditSum l uid } := by
  induction l generalizing s u with
  | nil =>
    have : creditSum [] uid = 0 := rfl
    rw [List.foldl_nil, this, hu]
    simp
  | cons p rest ih =>
    rw [List.foldl_cons]
    by_cases h : p.userId = uid
    · have h1 : findUser? (refundStep s p).users uid =
          some { u with virtualBalance := u.virtualBalance + p.amount } := by
        show findUser? (updateUser s.users p.userId
          (fun v => { v with virtualBalance := v.virtualBalance + p.amount })) uid = _
        rw [h, findUser?_updateUser_self s.users uid
          (fun v => { v with virtualBalance := v.virtualBalance + p.amount })
          (fun v => rfl), hu]
        rfl
      rw [ih _ _ h1, creditSum_cons, if_pos h]
      simp [add_assoc]
    · have h1 : findUser? (refundStep s p).users uid = some u := by
        show findUser? (updateUser s.users p.userId
          (fun v => { v with virtualBalance := v.virtualBalance + p.amount })) uid = _
        rw [findUser?_updateUser_ne s.users p.userId uid
          (fun v => { v with virtualBalance := v.virtualBalance + p.amount })
          (fun v => rfl) (fun e => h e.symm), hu]
      rw [ih _ _ h1, creditSum_cons, if_neg h]
      simp

theorem resolveRound_upDown_refund (s : St) (r : Round) (fp : ℚ)
    (h1 : s.round = some r) (hm : r.mode = GameMode.UP_DOWN)
    (hst : r.status = RoundStatus.ACTIVE ∨ r.status = RoundStatus.LOCKED)
    (hfp : fp = r.startPrice) :
    resolveRound true fp s = .ok (finalizeRound fp (s.predictions.foldl refundStep s)) := by
  unfold resolveRound resolveUpDownRound
  rcases hst with h | h <;> simp [h1, h, hm, hfp]

theorem resolveRound_upDown_payout (s : St) (r : Round) (fp : ℚ)
    (h1 : s.round = some r) (hm : r.mode = GameMode.UP_DOWN)
    (hst : r.status = RoundStatus.ACTIVE ∨ r.status = RoundStatus.LOCKED)
    (hfp : fp ≠ r.startPrice) (hW : udWinningPool r fp ≠ 0) :
    resolveRound true fp s = .ok (finalizeRound fp (s.predictions.foldl
      (upDownStep (udWinningSide r fp) (udWinningPool r fp) (udLosingPool r fp)) s)) := by
  unfold resolveRound resolveUpDownRound
  rcases hst with h | h <;> simp [h1, h, hm, hfp, hW]

theorem resolveRound_upDown_noWinner (s : St) (r : Round) (fp : ℚ)
    (h1 : s.round = some r) (hm : r.mode = GameMode.UP_DOWN)
    (hst : r.status = RoundStatus.ACTIVE ∨ r.status = RoundStatus.LOCKED)
    (hfp : fp ≠ r.startPrice) (hW : udWinningPool r fp = 0) :
    resolveRound true fp s = .ok (finalizeRound fp s) := by
  unfold resolveRound resolveUpDownRound
  rcases hst with h | h <;> simp [h1, h, hm, hfp, hW]

theorem resolveRound_legends_refund (s : St) (r : Round) (fp : ℚ)
    (h1 : s.round = some r) (hm : r.mode = GameMode.LEGENDS)
    (hst : r.status = RoundStatus.ACTIVE ∨ r.status = RoundStatus.LOCKED)
    (hwr : lgWinningRange? r fp = none) :
    resolveRound true fp s = .ok (finalizeRound fp (s.predictions.foldl refundStep s)) := by
  unfold resolveRound resolveLegendsRound
  rcases hst with h | h <;> simp [h1, h, hm, hwr]

theorem resolveRound_legends_payout (s : St) (r : Round) (fp : ℚ) (wr : PoolRange)
    (h1 : s.round = some r) (hm : r.mode = GameMode.LEGENDS)
    (hst : r.status = RoundStatus.ACTIVE ∨ r.status = RoundStatus.LOCKED)
    (hwr : lgWinningRange? r fp = some wr) (hW : wr.pool ≠ 0) :
    resolveRound true fp s = .ok (finalizeRound fp (s.predictions.foldl
      (legendsStep wr wr.pool (lgTotalPool r - wr.pool)) s)) := by
  unfold resolveRound resolveLegendsRound
  rcases hst with h | h <;> simp [h1, h, hm, hwr, hW]

theorem resolveRound_legends_noWinner (s : St) (r : Round) (fp : ℚ) (wr : PoolRange)
    (h1 : s.round = some r) (hm : r.mode = GameMode.LEGENDS)
    (hst : r.status = RoundStatus.ACTIVE ∨ r.status = RoundStatus.LOCKED)
    (hwr : lgWinningRange? r fp = some wr) (hW : wr.pool = 0) :
    resolveRound true fp s = .ok (finalizeRound fp s) := by
  unfold resolveRound resolveLegendsRound
  rcases hst with h | h <;> simp [h1, h, hm, hwr, hW]

theorem finalizeRound_predictions (fp : ℚ) (s : St) :
    (finalizeRound fp s).predictions = s.predictions := rfl

theorem finalizeRound_users (fp : ℚ) (s : St) :
    (finalizeRound fp s).users = s.users := rfl

theorem wonPayoutTotal_map_settle (isWin : Prediction → Bool) (W L : ℚ)
    (l : List Prediction) :
    wonPayoutTotal (l.map (fun p => settlePredF isWin W L p p)) =
      winTotal isWin l + winTotal isWin l / W * L := by
  induction l with
  | nil => simp [wonPayoutTotal, winTotal]
  | cons p rest ih =>
    unfold wonPayoutTotal winTotal at *
    rw [List.map_cons, List.map_cons, List.sum_cons, List.map_cons, List.sum_cons]
    have hhead : (if (settlePredF isWin W L p p).won = some true
        then (settlePredF isWin W L p p).payout.getD 0 else 0) =
        if isWin p then payoutOf W L p else 0 := by
      unfold settlePredF
      by_cases h : isWin p <;> simp [h]
    rw [hhead, ih]
    by_cases h : isWin p
    · rw [if_pos h, if_pos h]
      unfold payoutOf
      ring
    · rw [if_neg h, if_neg h]
      ring

theorem foldl_stepOf_findPred_of_nodup (pf : Prediction → Prediction → Prediction)
    (uf : Prediction → User → User) (hpf : ∀ p q, (pf p q).id = q.id)
    (l : List Prediction) (p : Prediction) (s : St)
    (hs : s.predictions = l) (hmem : p ∈ l) (hnd : (l.map Prediction.id).Nodup) :
    findPred? ((l.foldl (stepOf pf uf) s)).predictions p.id = some (pf p p) := by
  obtain ⟨l1, l2, hsplit, h1, h2⟩ := exists_split_of_nodup l Prediction.id p hmem hnd
  have hq : findPred? s.predictions p.id = some p := by
    rw [hs]
    exact findPred?_eq_self_of_nodup l p hmem hnd
  rw [hsplit]
  exact foldl_stepOf_findPred_once pf uf hpf l1 l2 p p s h1 h2 hq

theorem foldl_stepOf_findUser_of_nodup (pf : Prediction → Prediction → Prediction)
    (uf : Prediction → User → User) (huf : ∀ p u, (uf p u).id = u.id)
    (l : List Prediction) (p : Prediction) (u : User) (s : St)
    (hmem : p ∈ l) (hnd : (l.map Prediction.userId).Nodup)
    (hu : findUser? s.users p.userId = some u) :
    findUser? ((l.foldl (stepOf pf uf)) s).users p.userId = some (uf p u) := by
  obtain ⟨l1, l2, hsplit, h1, h2⟩ := exists_split_of_nodup l Prediction.userId p hmem hnd
  rw [hsplit]
  exact foldl_stepOf_findUser_once pf uf huf l1 l2 p u s h1 h2 hu

theorem settlePredF_id (isWin : Prediction → Bool) (W L : ℚ) (p q : Prediction) :
    (settlePredF isWin W L p q).id = q.id := by
  unfold settlePredF
  by_cases h : isWin p <;> simp [h]

theorem settleUserF_id (isWin : Prediction → Bool) (W L : ℚ) (p : Prediction) (u : User) :
    (settleUserF isWin W L p u).id = u.id := by
  unfold settleUserF
  by_cases h : isWin p <;> simp [h]

theorem settlePredF_amount (isWin : Prediction → Bool) (W L : ℚ) (p q : Prediction) :
    (settlePredF isWin W L p q).amount = q.amount := by
  unfold settlePredF
  by_cases h : isWin p <;> simp [h]

theorem refundPredF_id (p q : Prediction) : (refundPredF p q).id = q.id := rfl

theorem refundUserF_id (p : Prediction) (u : User) : (refundUserF p u).id = u.id := rfl

theorem refundPredF_amount (p q : Prediction) : (refundPredF p q).amount = q.amount := rfl


theorem settlePredF_win (isWin : Prediction → Bool) (W L : ℚ) (p : Prediction)
    (h : isWin p = true) :
    settlePredF isWin W L p p = wonPred p (p.amount + p.amount / W * L) := by
  unfold settlePredF wonPred payoutOf
  rw [if_pos h]

theorem settlePredF_lose (isWin : Prediction → Bool) (W L : ℚ) (p : Prediction)
    (h : isWin p = false) :
    settlePredF isWin W L p p = lostPred p := by
  unfold settlePredF lostPred
  rw [h]
  simp

theorem settleUserF_win (isWin : Prediction → Bool) (W L : ℚ) (p : Prediction)
    (u : User) (h : isWin p = true) :
    settleUserF isWin W L p u = creditedWinner u (p.amount + p.amount / W * L) := by
  unfold settleUserF creditedWinner payoutOf
  rw [if_pos h]

theorem settleUserF_lose (isWin : Prediction → Bool) (W L : ℚ) (p : Prediction)
    (u : User) (h : isWin p = false) :
    settleUserF isWin W L p u = streakReset u := by
  unfold settleUserF streakReset
  rw [h]
  simp

/-- C1: in a resolved round with positive winning pool, every prediction on
the winning side (UpDown) or exactly matching the winning range (Legends)
is set won=true with payout = amount + (amount / winningPool) * losingPool
and its user's balance is credited by that payout; every losing prediction
is set won=false with payout=0 and its user receives no balance credit. -/
theorem c1_per_prediction_settlement :
    (∀ (s : St) (r : Round) (fp : ℚ) (p : Prediction) (u : User),
      s.round = some r → r.mode = GameMode.UP_DOWN →
      (r.status = RoundStatus.ACTIVE ∨ r.status = RoundStatus.LOCKED) →
      fp ≠ r.startPrice → 0 < udWinningPool r fp →
      (s.predictions.map Prediction.id).Nodup →
      (s.predictions.map Prediction.userId).Nodup →
      p ∈ s.predictions → findUser? s.users p.userId = some u →
      ∃ s1, resolveRound true fp s = .ok s1 ∧
        (p.side = some (udWinningSide r fp) →
          findPred? s1.predictions p.id =
            some (wonPred p (p.amount + p.amount / udWinningPool r fp * udLosingPool r fp)) ∧
          findUser? s1.users p.userId =
            some (creditedWinner u (p.amount + p.amount / udWinningPool r fp * udLosingPool r fp))) ∧
        (p.side ≠ some (udWinningSide r fp) →
          findPred? s1.predictions p.id = some (lostPred p) ∧
          findUser? s1.users p.userId = some (streakReset u))) ∧
    (∀ (s : St) (r : Round) (fp : ℚ) (wr : PoolRange) (p : Prediction) (u : User),
      s.round = some r → r.mode = GameMode.LEGENDS →
      (r.status = RoundStatus.ACTIVE ∨ r.status = RoundStatus.LOCKED) →
      lgWinningRange? r fp = some wr → 0 < wr.pool →
      (s.predictions.map Prediction.id).Nodup →
      (s.predictions.map Prediction.userId).Nodup →
      p ∈ s.predictions → findUser? s.users p.userId = some u →
      ∃ s1, resolveRound true fp s = .ok s1 ∧
        (lgWins wr p = true →
          findPred? s1.predictions p.id =
            some (wonPred p (p.amount + p.amount / wr.pool * (lgTotalPool r - wr.pool))) ∧
          findUser? s1.users p.userId =
            some (creditedWinner u (p.amount + p.amount / wr.pool * (lgTotalPool r - wr.pool)))) ∧
        (lgWins wr p = false →
          findPred? s1.predictions p.id = some (lostPred p) ∧
          findUser? s1.users p.userId = some (streakReset u))) := by
  constructor
  · intro s r fp p u h1 hm hst hfp hW hndid hnduid hmem hu
    refine ⟨_, resolveRound_upDown_payout s r fp h1 hm hst hfp (ne_of_gt hW), ?_, ?_⟩
    · intro hside
      have hwin : udWins (udWinningSide r fp) p = true := by simp [udWins, hside]
      constructor
      · rw [finalizeRound_predictions, upDownStep_eq,
          foldl_stepOf_findPred_of_nodup _ _ (settlePredF_id _ _ _) s.predictions p s rfl hmem hndid,
          settlePredF_win _ _ _ _ hwin]
      · rw [finalizeRound_users, upDownStep_eq,
          foldl_stepOf_findUser_of_nodup _ _ (settleUserF_id _ _ _) s.predictions p u s hmem hnduid hu,
          settleUserF_win _ _ _ _ _ hwin]
    · intro hside
      have hwin : udWins (udWinningSide r fp) p = false := by simp [udWins, hside]
      constructor
      · rw [finalizeRound_predictions, upDownStep_eq,
          foldl_stepOf_findPred_of_nodup _ _ (settlePredF_id _ _ _) s.predictions p s rfl hmem hndid,
          settlePredF_lose _ _ _ _ hwin]
      · rw [finalizeRound_users, upDownStep_eq,
          foldl_stepOf_findUser_of_nodup _ _ (settleUserF_id _ _ _) s.predictions p u s hmem hnduid hu,
          settleUserF_lose _ _ _ _ _ hwin]
  · intro s r fp wr p u h1 hm hst hwr hW hndid hnduid hmem hu
    refine ⟨_, resolveRound_legends_payout s r fp wr h1 hm hst hwr (ne_of_gt hW), ?_, ?_⟩
    · intro hwin
      constructor
      · rw [finalizeRound_predictions, legendsStep_eq,
          foldl_stepOf_findPred_of_nodup _ _ (settlePredF_id _ _ _) s.predictions p s rfl hmem hndid,
          settlePredF_win _ _ _ _ hwin]
      · rw [finalizeRound_users, legendsStep_eq,
          foldl_stepOf_findUser_of_nodup _ _ (settleUserF_id _ _ _) s.predictions p u s hmem hnduid hu,
          settleUserF_win _ _ _ _ _ hwin]
    · intro hwin
      constructor
      · rw [finalizeRound_predictions, legendsStep_eq,
          foldl_stepOf_findPred_of_nodup _ _ (settlePredF_id _ _ _) s.predictions p s rfl hmem hndid,
          settlePredF_lose _ _ _ _ hwin]
      · rw [finalizeRound_users, legendsStep_eq,
          foldl_stepOf_findUser_of_nodup _ _ (settleUserF_id _ _ _) s.predictions p u s hmem hnduid hu,
          settleUserF_lose _ _ _ _ _ hwin]

theorem c1_per_prediction_settlement_witness :
    (∃ s1, resolveRound true 110 oneUpBetSt = .ok s1 ∧
      ((betOn 1 1 100 Side.UP).side = some (udWinningSide (activeUpDownRound 100 0) 110) →
        findPred? s1.predictions (betOn 1 1 100 Side.UP).id =
          some (wonPred (betOn 1 1 100 Side.UP)
            ((betOn 1 1 100 Side.UP).amount + (betOn 1 1 100 Side.UP).amount /
              udWinningPool (activeUpDownRound 100 0) 110 *
              udLosingPool (activeUpDownRound 100 0) 110)) ∧
        findUser? s1.users (betOn 1 1 100 Side.UP).userId =
          some (creditedWinner (plainUser 1 0)
            ((betOn 1 1 100 Side.UP).amount + (betOn 1 1 100 Side.UP).amount /
              udWinningPool (activeUpDownRound 100 0) 110 *
              udLosingPool (activeUpDownRound 100 0) 110))) ∧
      ((betOn 1 1 100 Side.UP).side ≠ some (udWinningSide (activeUpDownRound 100 0) 110) →
        findPred? s1.predictions (betOn 1 1 100 Side.UP).id =
          some (lostPred (betOn 1 1 100 Side.UP)) ∧
        findUser? s1.users (betOn 1 1 100 Side.UP).userId =
          some (streakReset (plainUser 1 0)))) ∧
    (∃ s1, resolveRound true 102 legendsBetSt = .ok s1 ∧
      ((lgWins { min := 100, max := 105, pool := 50 } (legendsBet 1 1 50 100 105)) = true →
        findPred? s1.predictions (legendsBet 1 1 50 100 105).id =
          some (wonPred (legendsBet 1 1 50 100 105)
            ((legendsBet 1 1 50 100 105).amount + (legendsBet 1 1 50 100 105).amount / (50 : ℚ) *
              (lgTotalPool { mode := .LEGENDS, status := .LOCKED, startPrice := 100,
                             endPrice := none, poolUp := 0, poolDown := 0,
                             priceRanges := [{ min := 100, max := 105, pool := 50 },
                                             { min := 105, max := 110, pool := 50 }] } - 50))) ∧
        findUser? s1.users (legendsBet 1 1 50 100 105).userId =
          some (creditedWinner (plainUser 1 0)
            ((legendsBet 1 1 50 100 105).amount + (legendsBet 1 1 50 100 105).amount / (50 : ℚ) *
              (lgTotalPool { mode := .LEGENDS, status := .LOCKED, startPrice := 100,
                             endPrice := none, poolUp := 0, poolDown := 0,
                             priceRanges := [{ min := 100, max := 105, pool := 50 },
                                             { min := 105, max := 110, pool := 50 }] } - 50)))) ∧
      ((lgWins { min := 100, max := 105, pool := 50 } (legendsBet 1 1 50 100 105)) = false →
        findPred? s1.predictions (legendsBet 1 1 50 100 105).id =
          some (lostPred (legendsBet 1 1 50 100 105)) ∧
        findUser? s1.users (legendsBet 1 1 50 100 105).userId =
          some (streakReset (plainUser 1 0)))) :=
  ⟨c1_per_prediction_settlement.1 oneUpBetSt (activeUpDownRound 100 0) 110
    (betOn 1 1 100 Side.UP) (plainUser 1 0) rfl rfl (Or.inl rfl) (by decide) (by decide)
    (by decide) (by decide) (by decide) (by decide),
   c1_per_prediction_settlement.2 legendsBetSt
    { mode := .LEGENDS, status := .LOCKED, startPrice := 100,
      endPrice := none, poolUp := 0, poolDown := 0,
      priceRanges := [{ min := 100, max := 105, pool := 50 },
                      { min := 105, max := 110, pool := 50 }] } 102
    { min := 100, max := 105, pool := 50 } (legendsBet 1 1 50 100 105) (plainUser 1 0)
    rfl rfl (Or.inr rfl) (by decide) (by decide) (by decide) (by decide) (by decide) (by decide)⟩

theorem foldl_settle_predictions (isWin : Prediction → Bool) (W L : ℚ)
    (uf : Prediction → User → User) (s : St)
    (hnd : (s.predictions.map Prediction.id).Nodup) :
    ((s.predictions.foldl (stepOf (settlePredF isWin W L) uf) s)).predictions =
      s.predictions.map (fun p => settlePredF isWin W L p p) := by
  have := foldl_stepOf_predictions (settlePredF isWin W L) uf
    (settlePredF_id isWin W L) s.predictions [] s (by simp) (by simp) hnd
  simpa using this

/-- C2: when the winning pool is positive and the round's stored pool
totals equal the sums of the corresponding predictions' stakes, the sum of
the payouts written to the winning predictions equals the sum of the
winning stakes plus the losing pool, exactly (over the embedded exact
rational arithmetic). -/
theorem c2_conservation :
    (∀ (s : St) (r : Round) (fp : ℚ),
      s.round = some r → r.mode = GameMode.UP_DOWN →
      (r.status = RoundStatus.ACTIVE ∨ r.status = RoundStatus.LOCKED) →
      fp ≠ r.startPrice → 0 < udWinningPool r fp →
      (s.predictions.map Prediction.id).Nodup →
      r.poolUp = winTotal (udWins Side.UP) s.predictions →
      r.poolDown = winTotal (udWins Side.DOWN) s.predictions →
      ∃ s1, resolveRound true fp s = .ok s1 ∧
        wonPayoutTotal s1.predictions =
          winTotal (udWins (udWinningSide r fp)) s.predictions + udLosingPool r fp) ∧
    (∀ (s : St) (r : Round) (fp : ℚ) (wr : PoolRange),
      s.round = some r → r.mode = GameMode.LEGENDS →
      (r.status = RoundStatus.ACTIVE ∨ r.status = RoundStatus.LOCKED) →
      lgWinningRange? r fp = some wr → 0 < wr.pool →
      (s.predictions.map Prediction.id).Nodup →
      (∀ rg ∈ r.priceRanges, rg.pool = winTotal (lgWins rg) s.predictions) →
      ∃ s1, resolveRound true fp s = .ok s1 ∧
        wonPayoutTotal s1.predictions =
          winTotal (lgWins wr) s.predictions + (lgTotalPool r - wr.pool)) := by
  constructor
  · intro s r fp h1 hm hst hfp hW hnd hup hdown
    refine ⟨_, resolveRound_upDown_payout s r fp h1 hm hst hfp (ne_of_gt hW), ?_⟩
    rw [finalizeRound_predictions, upDownStep_eq, foldl_settle_predictions _ _ _ _ _ hnd,
      wonPayoutTotal_map_settle]
    have hWT : udWinningPool r fp = winTotal (udWins (udWinningSide r fp)) s.predictions := by
      unfold udWinningPool
      by_cases h : udWinningSide r fp = Side.UP
      · rw [if_pos h, h, hup]
      · have hd : udWinningSide r fp = Side.DOWN := by
          cases hws : udWinningSide r fp
          · exact absurd hws h
          · rfl
        rw [if_neg h, hd, hdown]
    rw [← hWT, div_self (ne_of_gt hW), one_mul]
  · intro s r fp wr h1 hm hst hwr hW hnd hpools
    refine ⟨_, resolveRound_legends_payout s r fp wr h1 hm hst hwr (ne_of_gt hW), ?_⟩
    rw [finalizeRound_predictions, legendsStep_eq, foldl_settle_predictions _ _ _ _ _ hnd,
      wonPayoutTotal_map_settle]
    have hmemr : wr ∈ r.priceRanges := by
      unfold lgWinningRange? at hwr
      exact List.mem_of_find?_eq_some hwr
    have hWT : wr.pool = winTotal (lgWins wr) s.predictions := hpools wr hmemr
    rw [← hWT, div_self (ne_of_gt hW), one_mul]

theorem c2_conservation_witness :
    (∃ s1, resolveRound true 110 mixedBetSt = .ok s1 ∧
      wonPayoutTotal s1.predictions =
        winTotal (udWins (udWinningSide (activeUpDownRound 100 50) 110))
          mixedBetSt.predictions + udLosingPool (activeUpDownRound 100 50) 110) ∧
    (∃ s1, resolveRound true 102 legendsBetSt = .ok s1 ∧
      wonPayoutTotal s1.predictions =
        winTotal (lgWins { min := 100, max := 105, pool := 50 }) legendsBetSt.predictions +
          (lgTotalPool { mode := .LEGENDS, status := .LOCKED, startPrice := 100,
                         endPrice := none, poolUp := 0, poolDown := 0,
                         priceRanges := [{ min := 100, max := 105, pool := 50 },
                                         { min := 105, max := 110, pool := 50 }] } - 50)) :=
  ⟨c2_conservation.1 mixedBetSt (activeUpDownRound 100 50) 110 rfl rfl (Or.inl rfl)
    (by decide) (by decide) (by decide)
    (by simp [mixedBetSt, activeUpDownRound, winTotal, udWins, betOn])
    (by simp [mixedBetSt, activeUpDownRound, winTotal, udWins, betOn]),
   c2_conservation.2 legendsBetSt
    { mode := .LEGENDS, status := .LOCKED, startPrice := 100,
      endPrice := none, poolUp := 0, poolDown := 0,
      priceRanges := [{ min := 100, max := 105, pool := 50 },
                      { min := 105, max := 110, pool := 50 }] } 102
    { min := 100, max := 105, pool := 50 } rfl rfl (Or.inr rfl) (by decide) (by decide)
    (by decide) (by simp [legendsBetSt, winTotal, lgWins, legendsBet])⟩

theorem creditSum_append (l1 l2 : List Prediction) (uid : Nat) :
    creditSum (l1 ++ l2) uid = creditSum l1 uid + creditSum l2 uid := by
  unfold creditSum
  rw [List.map_append, List.sum_append]

theorem creditSum_eq_zero (l : List Prediction) (uid : Nat)
    (h : ∀ p ∈ l, p.userId ≠ uid) : creditSum l uid = 0 := by
  unfold creditSum
  induction l with
  | nil => rfl
  | cons p rest ih =>
    rw [List.map_cons, List.sum_cons, if_neg (h p (List.mem_cons_self _ _)),
      ih (fun q hq => h q (List.mem_cons_of_mem _ hq)), add_zero]

/-- C5: resolving an UpDown round at finalPrice = startPrice refunds every
prediction (won=null, payout=amount), credits each bettor's full stake back
(restoring the balance debited at submission, with wins and streak
untouched); composing a successful submission with such a resolution
returns the bettor's user row to exactly its pre-bet state. -/
theorem c5_refund_restores_balances :
    (∀ (s : St) (r : Round) (fp : ℚ) (p : Prediction) (u : User),
      s.round = some r → r.mode = GameMode.UP_DOWN →
      (r.status = RoundStatus.ACTIVE ∨ r.status = RoundStatus.LOCKED) →
      fp = r.startPrice →
      (s.predictions.map Prediction.id).Nodup →
      (s.predictions.map Prediction.userId).Nodup →
      p ∈ s.predictions → findUser? s.users p.userId = some u →
      ∃ s1, resolveRound true fp s = .ok s1 ∧
        findPred? s1.predictions p.id = some (refundedPred p) ∧
        findUser? s1.users p.userId = some (creditedUser u p.amount)) ∧
    (∀ (s0 s1 s2 : St) (pred : Prediction) (uid : Nat) (amount fp : ℚ)
       (sd : Option Side) (r0 : Round) (u : User),
      s0.round = some r0 →
      submitPrediction true uid amount sd none s0 = .ok (s1, pred) →
      fp = r0.startPrice →
      resolveRound true fp s1 = .ok s2 →
      findUser? s0.users uid = some u →
      findUser? s2.users uid = some u) := by
  constructor
  · intro s r fp p u h1 hm hst hfp hndid hnduid hmem hu
    refine ⟨_, resolveRound_upDown_refund s r fp h1 hm hst hfp, ?_, ?_⟩
    · rw [finalizeRound_predictions, refundStep_eq,
        foldl_stepOf_findPred_of_nodup _ _ (fun p q => refundPredF_id p q)
          s.predictions p s rfl hmem hndid]
      rfl
    · rw [finalizeRound_users, refundStep_eq,
        foldl_stepOf_findUser_of_nodup _ _ (fun p v => refundUserF_id p v)
          s.predictions p u s hmem hnduid hu]
      rfl
  · intro s0 s1 s2 pred uid amount fp sd r0 u h0 hsub hfp hres hu0
    unfold submitPrediction at hsub
    rw [h0, hu0] at hsub
    dsimp only at hsub
    by_cases hact : r0.status ≠ RoundStatus.ACTIVE
    · rw [if_pos hact] at hsub
      cases hsub
    rw [if_neg hact] at hsub
    push_neg at hact
    by_cases hdup : (s0.predictions.find? (fun p => p.userId == uid)).isSome = true
    · rw [if_pos hdup] at hsub
      cases hsub
    rw [if_neg hdup] at hsub
    by_cases hbal : u.virtualBalance < amount
    · rw [if_pos hbal] at hsub
      cases hsub
    rw [if_neg hbal] at hsub
    cases hmode : r0.mode with
    | LEGENDS =>
      rw [hmode] at hsub
      dsimp only at hsub
      cases hsub
    | UP_DOWN =>
      rw [hmode] at hsub
      dsimp only at hsub
      cases hsd : sd with
      | none =>
        rw [hsd] at hsub
        dsimp only at hsub
        cases hsub
      | some side =>
        rw [hsd] at hsub
        dsimp only at hsub
        rw [if_pos rfl] at hsub
        injection hsub with hsub1
        injection hsub1 with hs1 hpred
        have hs1round : s1.round = some (submittedRound r0 side amount) := by
          rw [← hs1]
          rfl
        have hres2 := resolveRound_upDown_refund s1 _ fp hs1round rfl (Or.inl hact) hfp
        rw [hres] at hres2
        injection hres2 with hs2
        rw [hs2, finalizeRound_users]
        have hu1 : findUser? s1.users uid = some { u with
            virtualBalance := u.virtualBalance - amount } := by
          rw [← hs1]
          show findUser? (updateUser s0.users uid
            (fun v => { v with virtualBalance := u.virtualBalance - amount })) uid = _
          rw [findUser?_updateUser_self s0.users uid
            (fun v => { v with virtualBalance := u.virtualBalance - amount })
            (fun v => rfl), hu0]
          rfl
        have hcred := foldl_refund_findUser s1.predictions s1 uid
          { u with virtualBalance := u.virtualBalance - amount } hu1
        rw [hcred]
        have hpreds1 : s1.predictions =
            s0.predictions ++ [betOn s0.nextPredId uid amount side] := by
          rw [← hs1]
          rfl
        have hzero : creditSum s0.predictions uid = 0 := by
          refine creditSum_eq_zero _ _ ?_
          intro p hp he
          have hfound : (s0.predictions.find? (fun q => q.userId == uid)).isSome = true := by
            rw [List.find?_isSome]
            exact ⟨p, hp, by simp [he]⟩
          exact hdup hfound
        have hone : creditSum [betOn s0.nextPredId uid amount side] uid = amount := by
          unfold creditSum betOn
          simp
        rw [hpreds1, creditSum_append, hzero, zero_add, hone]
        have hb : u.virtualBalance - amount + amount = u.virtualBalance := by ring
        rw [hb]

theorem c5_refund_restores_balances_witness :
    (∃ s1, resolveRound true 100 mixedBetSt = .ok s1 ∧
      findPred? s1.predictions (betOn 1 1 100 Side.UP).id =
        some (refundedPred (betOn 1 1 100 Side.UP)) ∧
      findUser? s1.users (betOn 1 1 100 Side.UP).userId =
        some (creditedUser { id := 1, virtualBalance := 5, wins := 2, streak := 3 }
          (betOn 1 1 100 Side.UP).amount)) ∧
    (∃ s1 pred s2,
      submitPrediction true 2 50 (some Side.UP) none twoUserSt = .ok (s1, pred) ∧
      resolveRound true 100 s1 = .ok s2 ∧
      findUser? s2.users 2 = some (plainUser 2 50)) := by
  constructor
  · exact c5_refund_restores_balances.1 mixedBetSt (activeUpDownRound 100 50) 100
      (betOn 1 1 100 Side.UP) { id := 1, virtualBalance := 5, wins := 2, streak := 3 }
      rfl rfl (Or.inl rfl) rfl (by decide) (by decide) (by decide) (by decide)
  · have hsub : submitPrediction true 2 50 (some Side.UP) none twoUserSt =
        .ok ((⟨some (activeUpDownRound 50 0), [betOn 1 2 50 Side.UP],
               [plainUser 1 0, plainUser 2 0], 2⟩ : St), betOn 1 2 50 Side.UP) := by
      unfold submitPrediction twoUserSt activeUpDownRound plainUser betOn
        findUser? updateUser
      norm_num
      decide
    have hres := resolveRound_upDown_refund
      (⟨some (activeUpDownRound 50 0), [betOn 1 2 50 Side.UP],
        [plainUser 1 0, plainUser 2 0], 2⟩ : St)
      (activeUpDownRound 50 0) 100 rfl rfl (Or.inl rfl) rfl
    refine ⟨_, _, _, hsub, hres, ?_⟩
    exact c5_refund_restores_balances.2 twoUserSt _ _ _ 2 50 100 (some Side.UP)
      (activeUpDownRound 0 0) (plainUser 2 50) rfl hsub rfl hres (by decide)

/-- C4 counterexample: resolving an UpDown round whose winning (UP) pool is
empty leaves the DOWN prediction entirely untouched — won and payout stay
unset — instead of marking it won=false with payout=0 as the claim states. -/
theorem c4_counterexample_no_winner_untouched :
    ∃ s1, resolveRound true 110 noWinnerSt = .ok s1 ∧
      findPred? s1.predictions 1 = some (betOn 1 1 100 Side.DOWN) ∧
      ¬ findPred? s1.predictions 1 = some (lostPred (betOn 1 1 100 Side.DOWN)) := by
  refine ⟨_, resolveRound_upDown_noWinner noWinnerSt (activeUpDownRound 0 100) 110
    rfl rfl (Or.inl rfl) (by decide) (by decide), ?_, ?_⟩
  · decide
  · decide

/-- C4 amended: when the winning pool of the resolved outcome is zero, the
code returns early: no prediction is updated at all (their won/payout stay
unset rather than being written won=false/payout=0), no balance is
credited, the case is not treated as a refund, and the round is still
marked RESOLVED with the final price. -/
theorem c4_no_winner_leaves_predictions_unsettled :
    (∀ (s : St) (r : Round) (fp : ℚ),
      s.round = some r → r.mode = GameMode.UP_DOWN →
      (r.status = RoundStatus.ACTIVE ∨ r.status = RoundStatus.LOCKED) →
      fp ≠ r.startPrice → udWinningPool r fp = 0 →
      ∃ s1, resolveRound true fp s = .ok s1 ∧
        s1.predictions = s.predictions ∧ s1.users = s.users ∧
        s1.round = some { r with status := RoundStatus.RESOLVED, endPrice := some fp }) ∧
    (∀ (s : St) (r : Round) (fp : ℚ) (wr : PoolRange),
      s.round = some r → r.mode = GameMode.LEGENDS →
      (r.status = RoundStatus.ACTIVE ∨ r.status = RoundStatus.LOCKED) →
      lgWinningRange? r fp = some wr → wr.pool = 0 →
      ∃ s1, resolveRound true fp s = .ok s1 ∧
        s1.predictions = s.predictions ∧ s1.users = s.users ∧
        s1.round = some { r with status := RoundStatus.RESOLVED, endPrice := some fp }) := by
  constructor
  · intro s r fp h1 hm hst hfp hW
    refine ⟨_, resolveRound_upDown_noWinner s r fp h1 hm hst hfp hW, rfl, rfl, ?_⟩
    show (s.round.map _) = _
    rw [h1]
    rfl
  · intro s r fp wr h1 hm hst hwr hW
    refine ⟨_, resolveRound_legends_noWinner s r fp wr h1 hm hst hwr hW, rfl, rfl, ?_⟩
    show (s.round.map _) = _
    rw [h1]
    rfl

theorem c4_no_winner_leaves_predictions_unsettled_witness :
    (∃ s1, resolveRound true 110 noWinnerSt = .ok s1 ∧
      s1.predictions = noWinnerSt.predictions ∧ s1.users = noWinnerSt.users ∧
      s1.round = some { activeUpDownRound 0 100 with status := RoundStatus.RESOLVED, endPrice := some 110 }) ∧
    (∃ s1, resolveRound true 102 legendsSt = .ok s1 ∧
      s1.predictions = legendsSt.predictions ∧ s1.users = legendsSt.users ∧
      s1.round = some (⟨GameMode.LEGENDS, RoundStatus.RESOLVED, 100, some 102, 0, 0, [⟨100, 105, 0⟩]⟩ : Round)) :=
  ⟨c4_no_winner_leaves_predictions_unsettled.1 noWinnerSt (activeUpDownRound 0 100) 110
    rfl rfl (Or.inl rfl) (by decide) (by decide),
   c4_no_winner_leaves_predictions_unsettled.2 legendsSt
    { mode := GameMode.LEGENDS, status := RoundStatus.ACTIVE, startPrice := 100,
      endPrice := none, poolUp := 0, poolDown := 0,
      priceRanges := [{ min := 100, max := 105, pool := 0 }] } 102
    { min := 100, max := 105, pool := 0 } rfl rfl (Or.inl rfl) (by decide) (by decide)⟩

/-- C9 counterexample: lockRound succeeds on a RESOLVED round and sets its
status back to LOCKED, instead of failing with InvalidState as claimed. -/
theorem c9_counterexample_lock_resolved_round :
    ∃ s1, lockRound resolvedSt = .ok s1 ∧
      s1.round = some { resolvedRound with status := RoundStatus.LOCKED } :=
  ⟨_, rfl, rfl⟩

/-- C9 amended: lockRound performs an unconditional status write: whenever
the round row exists it succeeds and sets status=LOCKED regardless of the
current status (so a Resolved or Cancelled round is moved back to Locked),
and it fails only when the round row does not exist. -/
theorem c9_lock_unconditional :
    (∀ (s : St) (r : Round), s.round = some r →
      lockRound s = .ok { s with round := some { r with status := RoundStatus.LOCKED } }) ∧
    (∀ s : St, s.round = none → lockRound s = .error LockErr.recordNotFound) := by
  constructor
  · intro s r h
    unfold lockRound
    rw [h]
  · intro s h
    unfold lockRound
    rw [h]

theorem c9_lock_unconditional_witness :
    lockRound resolvedSt =
      .ok { resolvedSt with round := some { resolvedRound with status := RoundStatus.LOCKED } } ∧
    lockRound emptySt = .error LockErr.recordNotFound :=
  ⟨c9_lock_unconditional.1 resolvedSt resolvedRound rfl,
   c9_lock_unconditional.2 emptySt rfl⟩

/-- C7 counterexample: a Soroban failure during UP_DOWN bet placement or
UP_DOWN resolution does block the local outcome: the submission fails with
sorobanError (no prediction is created) and the resolution fails with
sorobanError (no settlement happens), contradicting the claim that the
local prediction is still created and local settlement still completes. -/
theorem c7_counterexample_soroban_blocks :
    submitPrediction false 2 50 (some Side.UP) none twoUserSt =
      .error SubmitErr.sorobanError ∧
    resolveRound false 110 oneUpBetSt = .error ResolveErr.sorobanError := by
  constructor
  · simp [submitPrediction, twoUserSt, activeUpDownRound, plainUser, findUser?]
  · simp [resolveRound, resolveUpDownRound, oneUpBetSt, activeUpDownRound]

/-- C7 amended: a failure of the Soroban call during UP_DOWN bet placement
or UP_DOWN round resolution propagates as an error and aborts the local
operation before any local write: no prediction is created and no
settlement is performed (the store is left unchanged). -/
theorem c7_soroban_failure_aborts :
    (∀ (s : St) (r : Round) (uid : Nat) (amount : ℚ) (sd : Side)
       (pr : Option PriceRange) (u : User),
      s.round = some r → r.status = RoundStatus.ACTIVE → r.mode = GameMode.UP_DOWN →
      (s.predictions.find? (fun p => p.userId == uid)).isSome = false →
      findUser? s.users uid = some u → ¬ u.virtualBalance < amount →
      submitPrediction false uid amount (some sd) pr s = .error SubmitErr.sorobanError ∧
      applyOp s (Op.submit false uid amount (some sd) pr) = s) ∧
    (∀ (s : St) (r : Round) (fp : ℚ),
      s.round = some r → r.mode = GameMode.UP_DOWN →
      (r.status = RoundStatus.ACTIVE ∨ r.status = RoundStatus.LOCKED) →
      resolveRound false fp s = .error ResolveErr.sorobanError ∧
      applyOp s (Op.resolve false fp) = s) := by
  constructor
  · intro s r uid amount sd pr u h0 hact hm hdup hu hbal
    have hsub : submitPrediction false uid amount (some sd) pr s =
        .error SubmitErr.sorobanError := by
      unfold submitPrediction
      rw [h0, hu]
      dsimp only
      rw [if_neg (by simp [hact]), if_neg (by simp [hdup]), if_neg hbal, hm]
      dsimp only
      rw [if_neg (by decide)]
    refine ⟨hsub, ?_⟩
    unfold applyOp
    dsimp only
    rw [hsub]
  · intro s r fp h0 hm hst
    have hres : resolveRound false fp s = .error ResolveErr.sorobanError := by
      unfold resolveRound resolveUpDownRound
      rcases hst with h | h <;> simp [h0, h, hm]
    refine ⟨hres, ?_⟩
    unfold applyOp
    dsimp only
    rw [hres]

theorem c7_soroban_failure_aborts_witness :
    (submitPrediction false 2 50 (some Side.UP) none twoUserSt =
        .error SubmitErr.sorobanError ∧
      applyOp twoUserSt (Op.submit false 2 50 (some Side.UP) none) = twoUserSt) ∧
    (resolveRound false 110 oneUpBetSt = .error ResolveErr.sorobanError ∧
      applyOp oneUpBetSt (Op.resolve false 110) = oneUpBetSt) :=
  ⟨c7_soroban_failure_aborts.1 twoUserSt (activeUpDownRound 0 0) 2 50 Side.UP none
    (plainUser 2 50) rfl rfl rfl (by decide) (by decide) (by decide),
   c7_soroban_failure_aborts.2 oneUpBetSt (activeUpDownRound 100 0) 110 rfl rfl
    (Or.inl rfl)⟩

/-- C10 counterexample: the service accepts a submission with amount = -10
(balance 100 on an ACTIVE LEGENDS round): no ValidationError is raised, a
Prediction with negative amount is created, the balance is credited to 110
and the range pool is driven to -10 — the opposite of zero side effects. -/
theorem c10_counterexample_negative_amount_accepted :
    ∃ s1 pred,
      submitPrediction true 1 (-10) none (some { min := 100, max := 105 }) legendsSt =
        .ok (s1, pred) ∧
      pred.amount = -10 ∧
      findUser? s1.users 1 = some { id := 1, virtualBalance := 110, wins := 0, streak := 0 } ∧
      s1.round = some (⟨GameMode.LEGENDS, RoundStatus.ACTIVE, 100, none, 0, 0,
        [⟨100, 105, -10⟩]⟩ : Round) := by
  have hsub : submitPrediction true 1 (-10) none (some { min := 100, max := 105 }) legendsSt =
      .ok ((⟨some (⟨GameMode.LEGENDS, RoundStatus.ACTIVE, 100, none, 0, 0,
              [⟨100, 105, -10⟩]⟩ : Round),
            [legendsBet 1 1 (-10) 100 105],
            [{ id := 1, virtualBalance := 110, wins := 0, streak := 0 }], 2⟩ : St),
          legendsBet 1 1 (-10) 100 105) := by
    unfold submitPrediction legendsSt plainUser legendsBet findUser? updateUser
    norm_num
  exact ⟨_, _, hsub, rfl, rfl, rfl⟩

/-- C10 amended: the service performs no amount>0 validation.  For any
amount ≤ 0 submitted by a user with non-negative balance on an ACTIVE
LEGENDS round (valid range, no duplicate), the submission succeeds: a
Prediction carrying the non-positive amount is created and the balance is
set to balance - amount (a credit).  The amount ≤ 0 guard exists only in
the HTTP route, which rejects it before the service is reached. -/
theorem c10_no_amount_validation_in_service :
    (∀ (s : St) (r : Round) (uid : Nat) (amount : ℚ) (pr : PriceRange) (u : User),
      s.round = some r → r.status = RoundStatus.ACTIVE → r.mode = GameMode.LEGENDS →
      (s.predictions.find? (fun p => p.userId == uid)).isSome = false →
      findUser? s.users uid = some u →
      amount ≤ 0 → 0 ≤ u.virtualBalance →
      (r.priceRanges.find? (fun rg => decide (rg.min = pr.min ∧ rg.max = pr.max))).isSome = true →
      ∃ s1 pred, submitPrediction true uid amount none (some pr) s = .ok (s1, pred) ∧
        pred.amount = amount ∧
        findUser? s1.users uid = some { u with virtualBalance := u.virtualBalance - amount }) ∧
    (∀ amount : ℚ, amount ≤ 0 → routeAmountAccepted amount = false) := by
  constructor
  · intro s r uid amount pr u h0 hact hm hdup hu hneg hbal hrange
    have hnlt : ¬ u.virtualBalance < amount := not_lt.mpr (hneg.trans hbal)
    simp only [submitPrediction, h0, hu, hm, hdup, hrange, hact, if_neg hnlt]
    norm_num
    refine ⟨_, _, ⟨rfl, rfl⟩, rfl, ?_⟩
    show findUser? (updateUser s.users uid
      (fun v => { v with virtualBalance := u.virtualBalance - amount })) uid = _
    rw [findUser?_updateUser_self s.users uid
      (fun v => { v with virtualBalance := u.virtualBalance - amount })
      (fun v => rfl), hu]
    rfl
  · intro amount h
    unfold routeAmountAccepted
    simp [h]

theorem c10_no_amount_validation_in_service_witness :
    (∃ s1 pred,
      submitPrediction true 1 (-10) none (some { min := 100, max := 105 }) legendsSt =
        .ok (s1, pred) ∧
      pred.amount = -10 ∧
      findUser? s1.users 1 =
        some { plainUser 1 100 with virtualBalance := (plainUser 1 100).virtualBalance - (-10) }) ∧
    routeAmountAccepted (-10) = false :=
  ⟨c10_no_amount_validation_in_service.1 legendsSt
      (⟨GameMode.LEGENDS, RoundStatus.ACTIVE, 100, none, 0, 0,
        [⟨100, 105, 0⟩]⟩ : Round) 1 (-10) { min := 100, max := 105 } (plainUser 1 100)
      rfl rfl rfl (by decide) (by decide) (by norm_num) (by norm_num [plainUser]) (by decide),
   c10_no_amount_validation_in_service.2 (-10) (by norm_num)⟩

theorem freshStats_eq_bump_zero (uid : Nat) (a b c : Bool) (e : ℚ) :
    freshStats uid a b c e = bumpStats a b c e (zeroStats uid) := by
  unfold freshStats bumpStats zeroStats
  simp

theorem statsFind?_map_self (stats : List UserStats) (uid : Nat)
    (g : UserStats → UserStats) (hid : ∀ t, (g t).userId = t.userId) :
    statsFind? (stats.map (fun t => if t.userId = uid then g t else t)) uid =
      (statsFind? stats uid).map g := by
  induction stats with
  | nil => rfl
  | cons t rest ih =>
    unfold statsFind? at *
    by_cases h : t.userId = uid
    · simp [List.find?_cons, h, hid]
    · simp [List.find?_cons, h, ih]

theorem statsFind?_map_ne (stats : List UserStats) (uid uid2 : Nat)
    (g : UserStats → UserStats) (hid : ∀ t, (g t).userId = t.userId)
    (hne : uid2 ≠ uid) :
    statsFind? (stats.map (fun t => if t.userId = uid then g t else t)) uid2 =
      statsFind? stats uid2 := by
  induction stats with
  | nil => rfl
  | cons t rest ih =>
    unfold statsFind? at *
    simp only [List.map_cons]
    by_cases h : t.userId = uid
    · exact (List.find?_cons_of_neg _ (by simp [h, hid, Ne.symm hne])).trans
        (ih.trans (List.find?_cons_of_neg _ (by simp [h, Ne.symm hne])).symm)
    · have e : (if t.userId = uid then g t else t) = t := by simp [h]
      rw [e]
      by_cases h2 : t.userId = uid2
      · exact (List.find?_cons_of_pos _ (by simp [h2])).trans
          (List.find?_cons_of_pos _ (by simp [h2])).symm
      · exact (List.find?_cons_of_neg _ (by simp [h2])).trans
          (ih.trans (List.find?_cons_of_neg _ (by simp [h2])).symm)

theorem find?_append_of_none {α : Type} (p : α → Bool) (l1 l2 : List α)
    (h : l1.find? p = none) : (l1 ++ l2).find? p = l2.find? p := by
  induction l1 with
  | nil => rfl
  | cons a rest ih =>
    by_cases hpa : p a = true
    · rw [List.find?_cons_of_pos _ hpa] at h
      cases h
    · rw [List.find?_cons_of_neg _ (by simp [hpa])] at h
      rw [List.cons_append, List.find?_cons_of_neg _ (by simp [hpa])]
      exact ih h

theorem find?_append_of_some {α : Type} (p : α → Bool) (l1 l2 : List α) (t : α)
    (h : l1.find? p = some t) : (l1 ++ l2).find? p = some t := by
  induction l1 with
  | nil => cases h
  | cons a rest ih =>
    by_cases hpa : p a = true
    · rw [List.find?_cons_of_pos _ hpa] at h
      rw [List.cons_append, List.find?_cons_of_pos _ hpa]
      exact h
    · rw [List.find?_cons_of_neg _ (by simp [hpa])] at h
      rw [List.cons_append, List.find?_cons_of_neg _ (by simp [hpa])]
      exact ih h

theorem statsFind?_upsert_self (stats : List UserStats) (uid : Nat)
    (a b c : Bool) (e : ℚ) :
    statsFind? (upsertStats stats uid a b c e) uid =
      some (bumpStats a b c e ((statsFind? stats uid).getD (zeroStats uid))) := by
  unfold upsertStats
  cases hfind : statsFind? stats uid with
  | some t =>
    have hpos : ((stats.find? (fun t => t.userId == uid)).isSome) = true := by
      unfold statsFind? at hfind
      rw [hfind]
      rfl
    rw [if_pos hpos]
    rw [statsFind?_map_self stats uid (bumpStats a b c e) (fun t => rfl), hfind]
    rfl
  | none =>
    have hneg : ((stats.find? (fun t => t.userId == uid)).isSome) = false := by
      unfold statsFind? at hfind
      rw [hfind]
      rfl
    rw [if_neg (by simp [hneg])]
    unfold statsFind? at *
    rw [find?_append_of_none _ _ _ hfind]
    rw [show List.find? (fun t => t.userId == uid) [freshStats uid a b c e] =
        some (freshStats uid a b c e) from
      List.find?_cons_of_pos _ (by simp [freshStats]), freshStats_eq_bump_zero]
    rfl

theorem statsFind?_upsert_ne (stats : List UserStats) (uid uid2 : Nat)
    (a b c : Bool) (e : ℚ) (hne : uid2 ≠ uid) :
    statsFind? (upsertStats stats uid a b c e) uid2 = statsFind? stats uid2 := by
  unfold upsertStats
  by_cases hpos : ((stats.find? (fun t => t.userId == uid)).isSome) = true
  · rw [if_pos hpos]
    exact statsFind?_map_ne stats uid uid2 (bumpStats a b c e) (fun t => rfl) hne
  · rw [if_neg hpos]
    unfold statsFind?
    cases hfind : List.find? (fun t => t.userId == uid2) stats with
    | some t => exact find?_append_of_some _ _ _ _ hfind
    | none =>
      rw [find?_append_of_none _ _ _ hfind,
        List.find?_cons_of_neg _ (by simp [freshStats, Ne.symm hne])]
      rfl

theorem foldl_statsStep_untouched (r : Round) (l : List Prediction)
    (stats : List UserStats) (uid : Nat) (h : ∀ q ∈ l, q.userId ≠ uid) :
    statsFind? (l.foldl (statsStep r) stats) uid = statsFind? stats uid := by
  induction l generalizing stats with
  | nil => rfl
  | cons q rest ih =>
    rw [List.foldl_cons]
    rw [ih (statsStep r stats q) (fun x hx => h x (List.mem_cons_of_mem _ hx))]
    unfold statsStep
    exact statsFind?_upsert_ne _ _ _ _ _ _ _ (fun e => h q (List.mem_cons_self _ _) e.symm)

theorem foldl_statsStep_once (r : Round) (l1 l2 : List Prediction) (p : Prediction)
    (stats : List UserStats)
    (h1 : ∀ q ∈ l1, q.userId ≠ p.userId) (h2 : ∀ q ∈ l2, q.userId ≠ p.userId) :
    statsFind? ((l1 ++ p :: l2).foldl (statsStep r) stats) p.userId =
      some (bumpStats (r.mode == GameMode.UP_DOWN) (r.mode == GameMode.LEGENDS)
        (calculatePredictionResult p r)
        (if calculatePredictionResult p r then p.amount else -p.amount)
        ((statsFind? stats p.userId).getD (zeroStats p.userId))) := by
  induction l1 generalizing stats with
  | nil =>
    rw [List.nil_append, List.foldl_cons]
    rw [foldl_statsStep_untouched r l2 _ p.userId h2]
    unfold statsStep
    exact statsFind?_upsert_self _ _ _ _ _ _
  | cons q rest ih =>
    rw [List.cons_append, List.foldl_cons]
    rw [ih (statsStep r stats q) (fun x hx => h1 x (List.mem_cons_of_mem _ hx))]
    unfold statsStep
    rw [statsFind?_upsert_ne _ _ _ _ _ _ _
      (fun e => h1 q (List.mem_cons_self _ _) e.symm)]

/-- C8 counterexample: folding user 7's winning prediction (stake 100,
recorded payout 400/3) into fresh stats adds 100 to totalEarnings — the
gross stake, not the net earnings payout − amount = 400/3 − 100 = 100/3
the claim requires. -/
theorem c8_counterexample_gross_earnings :
    updateUserStatsForRound resolvedRound [winnerPred] [] =
      .ok [freshStats 7 true false true 100] ∧
    (freshStats 7 true false true 100).totalEarnings = 100 ∧
    winnerPred.payout = some (400/3 : ℚ) ∧
    ¬ ((100 : ℚ) = 400/3 - winnerPred.amount) := by
  refine ⟨rfl, rfl, rfl, ?_⟩
  unfold winnerPred
  norm_num

/-- C8 amended: for each prediction folded into UserStats, the value added
to totalEarnings (and the mode's earnings) is +amount when
calculatePredictionResult — recomputed from the stored prices, ignoring
the recorded payout — holds, and −amount otherwise; correctPredictions and
the mode win counter increment exactly when that recomputation holds, and
in a price-unchanged (refunded) UpDown round every DOWN prediction counts
as correct, so refunded predictions do update win/loss counters. -/
theorem c8_stats_add_gross_amount :
    (∀ (r : Round) (ep : ℚ) (l1 l2 : List Prediction) (p : Prediction)
       (stats : List UserStats),
      r.endPrice = some ep → ep ≠ 0 →
      (∀ q ∈ l1, q.userId ≠ p.userId) → (∀ q ∈ l2, q.userId ≠ p.userId) →
      ∃ out, updateUserStatsForRound r (l1 ++ p :: l2) stats = .ok out ∧
        statsFind? out p.userId =
          some (bumpStats (r.mode == GameMode.UP_DOWN) (r.mode == GameMode.LEGENDS)
            (calculatePredictionResult p r)
            (if calculatePredictionResult p r then p.amount else -p.amount)
            ((statsFind? stats p.userId).getD (zeroStats p.userId)))) ∧
    (∀ (r : Round) (p : Prediction) (ep : ℚ),
      r.mode = GameMode.UP_DOWN → r.endPrice = some ep → ep = r.startPrice →
      p.side = some Side.DOWN → calculatePredictionResult p r = true) := by
  constructor
  · intro r ep l1 l2 p stats hep hne h1 h2
    refine ⟨_, ?_, foldl_statsStep_once r l1 l2 p stats h1 h2⟩
    unfold updateUserStatsForRound
    rw [hep]
    dsimp only
    rw [if_neg hne]
  · intro r p ep hm hep heq hside
    unfold calculatePredictionResult
    rw [hep, hm, hside]
    simp [heq]

theorem c8_stats_add_gross_amount_witness :
    (∃ out, updateUserStatsForRound resolvedRound ([] ++ winnerPred :: []) [] = .ok out ∧
      statsFind? out winnerPred.userId =
        some (bumpStats (resolvedRound.mode == GameMode.UP_DOWN)
          (resolvedRound.mode == GameMode.LEGENDS)
          (calculatePredictionResult winnerPred resolvedRound)
          (if calculatePredictionResult winnerPred resolvedRound then winnerPred.amount
           else -winnerPred.amount)
          ((statsFind? [] winnerPred.userId).getD (zeroStats winnerPred.userId)))) ∧
    calculatePredictionResult
      (⟨1, 7, 100, some Side.DOWN, none, none, some 100⟩ : Prediction)
      (⟨GameMode.UP_DOWN, RoundStatus.RESOLVED, 100, some 100, 0, 100, []⟩ : Round) = true :=
  ⟨c8_stats_add_gross_amount.1 resolvedRound 110 [] [] winnerPred [] rfl (by norm_num)
    (by simp) (by simp),
   c8_stats_add_gross_amount.2
    (⟨GameMode.UP_DOWN, RoundStatus.RESOLVED, 100, some 100, 0, 100, []⟩ : Round)
    (⟨1, 7, 100, some Side.DOWN, none, none, some 100⟩ : Prediction) 100 rfl rfl rfl rfl⟩

theorem PoolsNonneg_of_round_eq (s1 s2 : St) (h : s1.round = s2.round)
    (hp : PoolsNonneg s2) : PoolsNonneg s1 := by
  unfold PoolsNonneg at *
  rw [h]
  exact hp

theorem finalizeRound_pools (fp : ℚ) (s : St) (hp : PoolsNonneg s) :
    PoolsNonneg (finalizeRound fp s) := by
  unfold PoolsNonneg finalizeRound at *
  cases hr : s.round with
  | none => simp [hr]
  | some r =>
    rw [hr] at hp
    simpa [hr] using hp

theorem foldl_pool_ge_init (l : List PoolRange) (a : ℚ)
    (h : ∀ rg ∈ l, 0 ≤ rg.pool) :
    a ≤ l.foldl (fun sum r => sum + r.pool) a := by
  induction l generalizing a with
  | nil => exact le_refl a
  | cons rg rest ih =>
    rw [List.foldl_cons]
    calc a ≤ a + rg.pool := le_add_of_nonneg_right (h rg (List.mem_cons_self _ _))
    _ ≤ rest.foldl (fun sum r => sum + r.pool) (a + rg.pool) :=
        ih _ (fun x hx => h x (List.mem_cons_of_mem _ hx))

theorem mem_le_foldl_pool : ∀ (l : List PoolRange) (wr : PoolRange) (a : ℚ),
    wr ∈ l → (∀ rg ∈ l, 0 ≤ rg.pool) → 0 ≤ a →
    wr.pool ≤ l.foldl (fun sum r => sum + r.pool) a
  | [], wr, a, hmem, _, _ => absurd hmem (List.not_mem_nil wr)
  | rg :: rest, wr, a, hmem, h, ha => by
    rw [List.foldl_cons]
    rcases List.mem_cons.mp hmem with he | hm
    · subst he
      calc wr.pool ≤ a + wr.pool := le_add_of_nonneg_left ha
      _ ≤ rest.foldl (fun sum r => sum + r.pool) (a + wr.pool) :=
          foldl_pool_ge_init rest _ (fun x hx => h x (List.mem_cons_of_mem _ hx))
    · exact mem_le_foldl_pool rest wr _ hm (fun x hx => h x (List.mem_cons_of_mem _ hx))
        (add_nonneg ha (h rg (List.mem_cons_self _ _)))

theorem wr_pool_le_lgTotalPool (r : Round) (wr : PoolRange)
    (hmem : wr ∈ r.priceRanges) (h : ∀ rg ∈ r.priceRanges, 0 ≤ rg.pool) :
    wr.pool ≤ lgTotalPool r :=
  mem_le_foldl_pool r.priceRanges wr 0 hmem h (le_refl 0)

theorem submitPrediction_good (ok : Bool) (uid : Nat) (amount : ℚ)
    (sd : Option Side) (pr : Option PriceRange) (s s1 : St) (pred : Prediction)
    (h : submitPrediction ok uid amount sd pr s = .ok (s1, pred))
    (hg : GoodState s) (hpos : 0 < amount) : GoodState s1 := by
  obtain ⟨hb, ha, hp⟩ := hg
  unfold submitPrediction at h
  cases hr : s.round with
  | none =>
    rw [hr] at h
    cases h
  | some round =>
    rw [hr] at h
    dsimp only at h
    by_cases hact : round.status ≠ RoundStatus.ACTIVE
    · rw [if_pos hact] at h
      cases h
    rw [if_neg hact] at h
    by_cases hdup : (s.predictions.find? (fun p => p.userId == uid)).isSome = true
    · rw [if_pos hdup] at h
      cases h
    rw [if_neg hdup] at h
    cases hu : findUser? s.users uid with
    | none =>
      rw [hu] at h
      cases h
    | some user =>
      rw [hu] at h
      dsimp only at h
      by_cases hbal : user.virtualBalance < amount
      · rw [if_pos hbal] at h
        cases h
      rw [if_neg hbal] at h
      have hub : 0 ≤ user.virtualBalance - amount := by
        have := not_lt.mp hbal
        linarith
      cases hm : round.mode with
      | UP_DOWN =>
        rw [hm] at h
        dsimp only at h
        cases hsd : sd with
        | none =>
          rw [hsd] at h
          cases h
        | some side =>
          rw [hsd] at h
          dsimp only at h
          cases ok with
          | false =>
            rw [if_neg (by decide)] at h
            cases h
          | true =>
            rw [if_pos rfl] at h
            injection h with h1
            injection h1 with hs1 hpred
            subst hs1
            refine ⟨?_, ?_, ?_⟩
            · intro u hu2
              rcases mem_updateUser_cases _ _ _ u hu2 with ⟨v, hv, he | he⟩
              · rw [he]
                exact hub
              · rw [he]
                exact hb v hv
            · intro p hp2
              rcases List.mem_append.mp hp2 with h2 | h2
              · exact ha p h2
              · have he : p = ⟨s.nextPredId, uid, amount, some side, none, none, none⟩ := by
                  simpa using h2
                rw [he]
                exact hpos
            · unfold PoolsNonneg at hp ⊢
              rw [hr] at hp
              dsimp only
              obtain ⟨h1, h2, h3⟩ := hp
              refine ⟨?_, ?_, h3⟩
              · by_cases hside : side = Side.UP <;> simp [hside] <;> linarith
              · by_cases hside : side = Side.DOWN <;> simp [hside] <;> linarith
      | LEGENDS =>
        rw [hm] at h
        dsimp only at h
        cases hpr : pr with
        | none =>
          rw [hpr] at h
          cases h
        | some range =>
          rw [hpr] at h
          dsimp only at h
          by_cases hrange : (round.priceRanges.find?
              (fun rg => decide (rg.min = range.min ∧ rg.max = range.max))).isSome = true
          · rw [if_pos hrange] at h
            injection h with h1
            injection h1 with hs1 hpred
            subst hs1
            refine ⟨?_, ?_, ?_⟩
            · intro u hu2
              rcases mem_updateUser_cases _ _ _ u hu2 with ⟨v, hv, he | he⟩
              · rw [he]
                exact hub
              · rw [he]
                exact hb v hv
            · intro p hp2
              rcases List.mem_append.mp hp2 with h2 | h2
              · exact ha p h2
              · have he : p = ⟨s.nextPredId, uid, amount, none, some range, none, none⟩ := by
                  simpa using h2
                rw [he]
                exact hpos
            · unfold PoolsNonneg at hp ⊢
              rw [hr] at hp
              dsimp only
              obtain ⟨h1, h2, h3⟩ := hp
              refine ⟨h1, h2, ?_⟩
              intro rg hrg
              rcases List.mem_map.mp hrg with ⟨x, hx, he⟩
              by_cases hc : x.min = range.min ∧ x.max = range.max
              · rw [← he, if_pos hc]
                have := h3 x hx
                dsimp only
                linarith
              · rw [← he, if_neg hc]
                exact h3 x hx
          · rw [if_neg hrange] at h
            cases h

theorem finalize_fold_good (fp : ℚ) (pf : Prediction → Prediction → Prediction)
    (uf : Prediction → User → User) (l : List Prediction) (s : St)
    (hamt : ∀ p q, (pf p q).amount = q.amount)
    (hbalstep : ∀ p ∈ l, ∀ u : User, 0 ≤ u.virtualBalance → 0 ≤ (uf p u).virtualBalance)
    (hb : BalancesNonneg s) (ha : AmountsPos s) (hp : PoolsNonneg s) :
    GoodState (finalizeRound fp (l.foldl (stepOf pf uf) s)) := by
  refine ⟨?_, ?_, ?_⟩
  · intro u hu
    exact foldl_stepOf_balances pf uf l s hbalstep hb u hu
  · intro p hp2
    exact foldl_stepOf_amounts pf uf hamt l s ha p hp2
  · exact finalizeRound_pools fp _
      (PoolsNonneg_of_round_eq _ s (foldl_stepOf_round pf uf l s) hp)

theorem settleUserF_balance (isWin : Prediction → Bool) (W L : ℚ) (p : Prediction)
    (u : User) (hpay : 0 ≤ payoutOf W L p) (hu : 0 ≤ u.virtualBalance) :
    0 ≤ (settleUserF isWin W L p u).virtualBalance := by
  unfold settleUserF
  by_cases h : isWin p
  · rw [if_pos h]
    dsimp only
    linarith
  · rw [if_neg h]
    exact hu

theorem payoutOf_nonneg (W L : ℚ) (p : Prediction) (hpa : 0 < p.amount)
    (hW : 0 < W) (hL : 0 ≤ L) : 0 ≤ payoutOf W L p := by
  unfold payoutOf
  have h1 : 0 ≤ p.amount / W := le_of_lt (div_pos hpa hW)
  have h2 : 0 ≤ p.amount / W * L := mul_nonneg h1 hL
  linarith

theorem resolveRound_good (ok : Bool) (fp : ℚ) (s s1 : St)
    (h : resolveRound ok fp s = .ok s1) (hg : GoodState s) : GoodState s1 := by
  obtain ⟨hb, ha, hp⟩ := hg
  unfold resolveRound at h
  cases hr : s.round with
  | none =>
    rw [hr] at h
    cases h
  | some round =>
    rw [hr] at h
    dsimp only at h
    by_cases hres : round.status = RoundStatus.RESOLVED
    · rw [if_pos hres] at h
      cases h
    rw [if_neg hres] at h
    by_cases hinv : round.status ≠ RoundStatus.LOCKED ∧ round.status ≠ RoundStatus.ACTIVE
    · rw [if_pos hinv] at h
      cases h
    rw [if_neg hinv] at h
    have hpools : 0 ≤ round.poolUp ∧ 0 ≤ round.poolDown ∧
        ∀ rg ∈ round.priceRanges, 0 ≤ rg.pool := by
      unfold PoolsNonneg at hp
      rw [hr] at hp
      exact hp
    cases hm : round.mode with
    | UP_DOWN =>
      rw [hm] at h
      dsimp only at h
      unfold resolveUpDownRound at h
      cases ok with
      | false =>
        rw [if_neg (by decide)] at h
        cases h
      | true =>
        rw [if_pos rfl] at h
        by_cases hfp : fp = round.startPrice
        · rw [if_pos hfp] at h
          dsimp only at h
          injection h with hs1
          subst hs1
          rw [refundStep_eq]
          refine finalize_fold_good fp _ _ _ _ (fun p q => rfl) ?_ hb ha hp
          intro p hmem u hu
          have := ha p hmem
          show 0 ≤ u.virtualBalance + p.amount
          linarith
        · rw [if_neg hfp] at h
          by_cases hW : udWinningPool round fp = 0
          · rw [if_pos hW] at h
            dsimp only at h
            injection h with hs1
            subst hs1
            refine ⟨hb, ha, finalizeRound_pools fp s hp⟩
          · rw [if_neg hW] at h
            dsimp only at h
            injection h with hs1
            subst hs1
            rw [upDownStep_eq]
            refine finalize_fold_good fp _ _ _ _ (settlePredF_amount _ _ _) ?_ hb ha hp
            intro p hmem u hu
            have hWpos : 0 < udWinningPool round fp := by
              unfold udWinningPool at *
              by_cases hs : udWinningSide round fp = Side.UP
              · rw [if_pos hs] at hW ⊢
                exact lt_of_le_of_ne hpools.1 (Ne.symm hW)
              · rw [if_neg hs] at hW ⊢
                exact lt_of_le_of_ne hpools.2.1 (Ne.symm hW)
            have hLpos : 0 ≤ udLosingPool round fp := by
              unfold udLosingPool
              by_cases hs : udWinningSide round fp = Side.UP
              · rw [if_pos hs]
                exact hpools.2.1
              · rw [if_neg hs]
                exact hpools.1
            exact settleUserF_balance _ _ _ _ _
              (payoutOf_nonneg _ _ _ (ha p hmem) hWpos hLpos) hu
    | LEGENDS =>
      rw [hm] at h
      dsimp only at h
      unfold resolveLegendsRound at h
      cases hwr : lgWinningRange? round fp with
      | none =>
        rw [hwr] at h
        dsimp only at h
        injection h with hs1
        subst hs1
        rw [refundStep_eq]
        refine finalize_fold_good fp _ _ _ _ (fun p q => rfl) ?_ hb ha hp
        intro p hmem u hu
        have := ha p hmem
        show 0 ≤ u.virtualBalance + p.amount
        linarith
      | some wr =>
        rw [hwr] at h
        dsimp only at h
        by_cases hW : wr.pool = 0
        · rw [if_pos hW] at h
          dsimp only at h
          injection h with hs1
          subst hs1
          refine ⟨hb, ha, finalizeRound_pools fp s hp⟩
        · rw [if_neg hW] at h
          dsimp only at h
          injection h with hs1
          subst hs1
          rw [legendsStep_eq]
          refine finalize_fold_good fp _ _ _ _ (settlePredF_amount _ _ _) ?_ hb ha hp
          intro p hmem u hu
          have hmemwr : wr ∈ round.priceRanges := by
            unfold lgWinningRange? at hwr
            exact List.mem_of_find?_eq_some hwr
          have hWpos : 0 < wr.pool :=
            lt_of_le_of_ne (hpools.2.2 wr hmemwr) (Ne.symm hW)
          have hLpos : 0 ≤ lgTotalPool round - wr.pool := by
            have := wr_pool_le_lgTotalPool round wr hmemwr hpools.2.2
            linarith
          exact settleUserF_balance _ _ _ _ _
            (payoutOf_nonneg _ _ _ (ha p hmem) hWpos hLpos) hu

theorem lockRound_good (s s1 : St) (h : lockRound s = .ok s1) (hg : GoodState s) :
    GoodState s1 := by
  obtain ⟨hb, ha, hp⟩ := hg
  unfold lockRound at h
  cases hr : s.round with
  | none =>
    rw [hr] at h
    cases h
  | some r =>
    rw [hr] at h
    injection h with hs1
    subst hs1
    refine ⟨hb, ha, ?_⟩
    unfold PoolsNonneg at hp ⊢
    rw [hr] at hp
    exact hp

theorem applyOp_good (s : St) (op : Op) (hg : GoodState s) (hpos : opAmountPos op) :
    GoodState (applyOp s op) := by
  unfold applyOp
  cases op with
  | submit ok uid amount side pr =>
    dsimp only
    cases hsub : submitPrediction ok uid amount side pr s with
    | ok sp =>
      obtain ⟨s2, pred⟩ := sp
      exact submitPrediction_good ok uid amount side pr s s2 pred hsub hg hpos
    | error e => exact hg
  | resolve ok fp =>
    dsimp only
    cases hres2 : resolveRound ok fp s with
    | ok s2 => exact resolveRound_good ok fp s s2 hres2 hg
    | error e => exact hg
  | lock =>
    dsimp only
    cases hl : lockRound s with
    | ok s2 => exact lockRound_good s s2 hl hg
    | error e => exact hg

theorem runOps_good : ∀ (ops : List Op) (s : St), GoodState s →
    (∀ op ∈ ops, opAmountPos op) → GoodState (runOps s ops)
  | [], _, hg, _ => hg
  | op :: rest, s, hg, hpos =>
    runOps_good rest (applyOp s op)
      (applyOp_good s op hg (hpos op (List.mem_cons_self _ _)))
      (fun x hx => hpos x (List.mem_cons_of_mem _ hx))

/-- C6 amended: starting from a well-formed store (non-negative balances
and pools, positive stakes on recorded predictions), any sequence of core
operations in which every submitted amount is positive — the invariant the
HTTP route enforces but the service does not — keeps every user's balance
non-negative (indeed keeps the whole store well-formed). -/
theorem c6_balances_nonneg_with_positive_amounts :
    ∀ (ops : List Op) (s : St),
      GoodState s → (∀ op ∈ ops, opAmountPos op) →
      GoodState (runOps s ops) ∧
      ∀ u ∈ (runOps s ops).users, 0 ≤ u.virtualBalance := by
  intro ops s hg hpos
  have h := runOps_good ops s hg hpos
  exact ⟨h, h.1⟩

theorem c6_balances_nonneg_with_positive_amounts_witness :
    (GoodState (runOps twoUserSt [Op.submit true 2 50 (some Side.UP) none,
      Op.resolve true 110]) ∧
     ∀ u ∈ (runOps twoUserSt [Op.submit true 2 50 (some Side.UP) none,
      Op.resolve true 110]).users, 0 ≤ u.virtualBalance) :=
  c6_balances_nonneg_with_positive_amounts
    [Op.submit true 2 50 (some Side.UP) none, Op.resolve true 110] twoUserSt
    (by refine ⟨?_, ?_, ?_⟩ <;>
      norm_num [BalancesNonneg, AmountsPos, PoolsNonneg, twoUserSt, plainUser,
        activeUpDownRound])
    (by intro op hop
        rcases List.mem_cons.mp hop with h | h
        · subst h
          norm_num [opAmountPos]
        · rcases List.mem_cons.mp h with h2 | h2
          · subst h2
            trivial
          · cases h2)

/-- C6 counterexample: starting from non-negative balances (users 1 and 2
hold 0 and 50), the service-accepted sequence — user 1 bets -100 on DOWN,
user 2 bets 50 on UP, the round resolves UP — drives user 2's balance to
-50: payout = 50 + (50/50)·(-100) = -50 is credited, so a balance goes
negative under the core's own operations. -/
theorem c6_counterexample_negative_balance :
    (∀ u ∈ twoUserSt.users, 0 ≤ u.virtualBalance) ∧
    findUser? (runOps twoUserSt [Op.submit true 1 (-100) (some Side.DOWN) none,
      Op.submit true 2 50 (some Side.UP) none, Op.resolve true 110]).users 2 =
      some (⟨2, -50, 1, 1⟩ : User) ∧
    ¬ (0 ≤ (-50 : ℚ)) := by
  refine ⟨by decide, ?_, by norm_num⟩
  have h1 : submitPrediction true 1 (-100) (some Side.DOWN) none twoUserSt =
      .ok ((⟨some (⟨GameMode.UP_DOWN, RoundStatus.ACTIVE, 100, none, 0, -100, []⟩ : Round),
             [(⟨1, 1, -100, some Side.DOWN, none, none, none⟩ : Prediction)],
             [plainUser 1 100, plainUser 2 50], 2⟩ : St),
           (⟨1, 1, -100, some Side.DOWN, none, none, none⟩ : Prediction)) := by
    unfold submitPrediction twoUserSt activeUpDownRound plainUser findUser? updateUser
    norm_num [(show ¬ (Side.DOWN = Side.UP) by decide)]
  have h2 : submitPrediction true 2 50 (some Side.UP) none
      (⟨some (⟨GameMode.UP_DOWN, RoundStatus.ACTIVE, 100, none, 0, -100, []⟩ : Round),
        [(⟨1, 1, -100, some Side.DOWN, none, none, none⟩ : Prediction)],
        [plainUser 1 100, plainUser 2 50], 2⟩ : St) =
      .ok ((⟨some (⟨GameMode.UP_DOWN, RoundStatus.ACTIVE, 100, none, 50, -100, []⟩ : Round),
             [(⟨1, 1, -100, some Side.DOWN, none, none, none⟩ : Prediction),
              (⟨2, 2, 50, some Side.UP, none, none, none⟩ : Prediction)],
             [plainUser 1 100, plainUser 2 0], 3⟩ : St),
           (⟨2, 2, 50, some Side.UP, none, none, none⟩ : Prediction)) := by
    unfold submitPrediction plainUser findUser? updateUser
    norm_num [(show ¬ (Side.UP = Side.DOWN) by decide)]
  have h3 : resolveRound true 110
      (⟨some (⟨GameMode.UP_DOWN, RoundStatus.ACTIVE, 100, none, 50, -100, []⟩ : Round),
        [(⟨1, 1, -100, some Side.DOWN, none, none, none⟩ : Prediction),
         (⟨2, 2, 50, some Side.UP, none, none, none⟩ : Prediction)],
        [plainUser 1 100, plainUser 2 0], 3⟩ : St) =
      .ok (⟨some (⟨GameMode.UP_DOWN, RoundStatus.RESOLVED, 100, some 110, 50, -100, []⟩ : Round),
            [(⟨1, 1, -100, some Side.DOWN, none, some false, some 0⟩ : Prediction),
             (⟨2, 2, 50, some Side.UP, none, some true, some (-50)⟩ : Prediction)],
            [plainUser 1 100, (⟨2, -50, 1, 1⟩ : User)], 3⟩ : St) := by
    norm_num [resolveRound, resolveUpDownRound, udWinningSide, udWinningPool,
      udLosingPool, upDownStep, winnerStep, loserStep, updatePred, updateUser,
      finalizeRound, plainUser, List.foldl,
      (show ¬ (Side.DOWN = Side.UP) by decide),
      (show ¬ (RoundStatus.ACTIVE = RoundStatus.RESOLVED) by decide)]
  have e1 : applyOp twoUserSt (Op.submit true 1 (-100) (some Side.DOWN) none) =
      (⟨some (⟨GameMode.UP_DOWN, RoundStatus.ACTIVE, 100, none, 0, -100, []⟩ : Round),
        [(⟨1, 1, -100, some Side.DOWN, none, none, none⟩ : Prediction)],
        [plainUser 1 100, plainUser 2 50], 2⟩ : St) := by
    unfold applyOp
    dsimp only
    rw [h1]
  have e2 : applyOp
      (⟨some (⟨GameMode.UP_DOWN, RoundStatus.ACTIVE, 100, none, 0, -100, []⟩ : Round),
        [(⟨1, 1, -100, some Side.DOWN, none, none, none⟩ : Prediction)],
        [plainUser 1 100, plainUser 2 50], 2⟩ : St)
      (Op.submit true 2 50 (some Side.UP) none) =
      (⟨some (⟨GameMode.UP_DOWN, RoundStatus.ACTIVE, 100, none, 50, -100, []⟩ : Round),
        [(⟨1, 1, -100, some Side.DOWN, none, none, none⟩ : Prediction),
         (⟨2, 2, 50, some Side.UP, none, none, none⟩ : Prediction)],
        [plainUser 1 100, plainUser 2 0], 3⟩ : St) := by
    unfold applyOp
    dsimp only
    rw [h2]
  have e3 : applyOp
      (⟨some (⟨GameMode.UP_DOWN, RoundStatus.ACTIVE, 100, none, 50, -100, []⟩ : Round),
        [(⟨1, 1, -100, some Side.DOWN, none, none, none⟩ : Prediction),
         (⟨2, 2, 50, some Side.UP, none, none, none⟩ : Prediction)],
        [plainUser 1 100, plainUser 2 0], 3⟩ : St) (Op.resolve true 110) =
      (⟨some (⟨GameMode.UP_DOWN, RoundStatus.RESOLVED, 100, some 110, 50, -100, []⟩ : Round),
        [(⟨1, 1, -100, some Side.DOWN, none, some false, some 0⟩ : Prediction),
         (⟨2, 2, 50, some Side.UP, none, some true, some (-50)⟩ : Prediction)],
        [plainUser 1 100, (⟨2, -50, 1, 1⟩ : User)], 3⟩ : St) := by
    unfold applyOp
    dsimp only
    rw [h3]
  show findUser? (applyOp (applyOp (applyOp twoUserSt
    (Op.submit true 1 (-100) (some Side.DOWN) none))
    (Op.submit true 2 50 (some Side.UP) none)) (Op.resolve true 110)).users 2 = _
  rw [e1, e2, e3]
  decide

/-- C3: the claim fails on the code — resolveRound's status test is a
non-atomic read-then-act and the RESOLVED write happens only after all
balance credits.  In the interleaving model (caller A and caller B each
run read+check, then the settlement writes, then the status write; the
schedule lets B's check run before A's status write), BOTH callers
complete without error and the single UP winner's balance is credited
twice (0 → 200, wins/streak bumped twice).  Sequentially (second caller
starts after the first finishes) the second caller does get
AlreadyResolved and the winner is paid exactly once (0 → 100). -/
theorem c3_interleaved_double_payout :
    (runSched 110 oneUpBetSt [false, true, false, false, true, true]).procA.phase =
      Phase.done ∧
    (runSched 110 oneUpBetSt [false, true, false, false, true, true]).procB.phase =
      Phase.done ∧
    (runSched 110 oneUpBetSt [false, true, false, false, true, true]).procA.err = none ∧
    (runSched 110 oneUpBetSt [false, true, false, false, true, true]).procB.err = none ∧
    findUser? (runSched 110 oneUpBetSt [false, true, false, false, true, true]).shared.users 1 =
      some (⟨1, 200, 2, 2⟩ : User) ∧
    (runSched 110 oneUpBetSt [false, false, false, true]).procB.err =
      some ResolveErr.alreadyResolved ∧
    findUser? (runSched 110 oneUpBetSt [false, false, false, true]).shared.users 1 =
      some (⟨1, 100, 1, 1⟩ : User) := by
  norm_num [runSched, concStep, checkPhase, payPhase, finalizeRound, resolveUpDownRound,
    udWinningSide, udWinningPool, udLosingPool, upDownStep, winnerStep, loserStep,
    updatePred, updateUser, ProcSt.init, List.foldl, oneUpBetSt, activeUpDownRound,
    betOn, plainUser, findUser?,
    (show ¬ (RoundStatus.ACTIVE = RoundStatus.RESOLVED) by decide),
    (show ¬ (RoundStatus.RESOLVED = RoundStatus.LOCKED) by decide),
    (show ¬ (RoundStatus.RESOLVED = RoundStatus.ACTIVE) by decide)]
